import Mathlib

/-!
Moonlit Echoes Theme: the preset API of index.js.

A shallow embedding of `window.MoonlitEchoesTheme.presets` (index.js, lines 2496-2641):
`create`, `update`, `delete`, `export` and `import` acting on the extension settings
object, whose distinguished fields are `presets` (the preset registry) and
`activePreset`.

Modelling conventions.

* The registry `settings.presets` is a plain JavaScript object: a finite map from
  string keys to values, whose prototype is `Object.prototype`.  Its own properties are
  an association list with unique keys (`AList`); a property read `presets[k]` looks at
  the own properties first and then at the names `Object.prototype` defines.
* A snapshot is a flat object from setting identifiers to strings, numbers or booleans.
  Every object is truthy, so `!settings.presets[name]` holds exactly when the read
  yields `undefined`.
* `saveExtensionSettings` (persistence) and `syncMoonlitPresetsWithThemeList` (host
  selector) do not write to the settings object; they act on state that is not part of
  `Settings` and so do not appear in the state transformers below.
* The second part embeds the selector-facing functions of index.js
  (`updateThemeSelector`, `attachMoonlitListener`, `integrateWithThemeSelector`,
  `isMoonlitPreset`, the `handleMoonlit...` event handlers).  Dispatching an event is
  recorded, not executed.  The preset operations imported from
  src/ui/preset-manager.js are parameters (`PresetOps`) that may throw, and a handler
  yields the new state, the operations it called and the error that escaped it.
* The third part embeds the chat-style switcher (`switchChatStyle`,
  `applyChatDisplayStyle`, the slash commands), the custom settings (`addCustomSetting`,
  the default-filling loop of `initExtension`, the checkbox styles), the text box and
  the opacity slider of `createColorPicker`, and the avatar sources of
  src/core/observers.js.  The browser functions `URL`, `decodeURIComponent` and
  `encodeURIComponent` are parameters (`Browser`); `modelBrowser` is an executable
  instance used to evaluate concrete sources.
-/

namespace MoonlitEchoes

/-- Version tag written into exported presets (index.js line 10). -/
def THEME_VERSION : String := "3.0.0"

/-- Value of one setting inside a snapshot: a string, a number or a boolean. -/
inductive SettingValue
  | str (s : String)
  | num (n : Int)
  | bool (b : Bool)
  deriving DecidableEq, Repr

/-- Snapshot: the flat object `{ settingId: value }` stored under a preset name. -/
abbrev Snapshot := List (String × SettingValue)

/-- String-keyed properties that every plain object inherits from `Object.prototype`.
All of them hold a function or an object, hence a truthy value. -/
def objectPrototypeKeys : List String :=
  ["constructor", "__defineGetter__", "__defineSetter__", "hasOwnProperty",
   "__lookupGetter__", "__lookupSetter__", "isPrototypeOf", "propertyIsEnumerable",
   "toString", "valueOf", "__proto__", "toLocaleString"]

/-- Value held by a registry property: a snapshot object, or the built-in value that
`Object.prototype` holds under `key` (it can become an own property through
`update(name)` called without a snapshot on an inherited name).  Both are truthy. -/
inductive Entry
  | snapshot (s : Snapshot)
  | inherited (key : String)
  deriving DecidableEq, Repr

/-- Own properties of `settings.presets`, keyed by preset name. -/
abbrev Registry := AList (fun _ : String => Entry)

/-- A JavaScript value passed where a preset name is expected.  A string is itself; any
other value is represented by what the code observes of it: its truthiness and the
property key it converts to when used as `presets[name]` (for instance the array
`['Default']` is truthy and converts to the key `Default`, the number `0` is falsy and
converts to the key `0`, `undefined` is falsy and converts to `undefined`). -/
inductive JSName
  | str (s : String)
  | nonString (truthy : Bool) (key : String)
  deriving DecidableEq, Repr

namespace JSName

/-- Truthiness: `!name` is the negation of this.  The empty string is falsy. -/
def truthy : JSName → Bool
  | str s => decide (s ≠ "")
  | nonString t _ => t

/-- The test `typeof name === 'string'`. -/
def isString : JSName → Bool
  | str _ => true
  | nonString _ _ => false

/-- Property key used by `presets[name]`. -/
def toKey : JSName → String
  | str s => s
  | nonString _ k => k

end JSName

/-- The extension settings object: the registry, the active preset name and the flat
live setting values. -/
structure Settings where
  presets : Registry
  activePreset : String
  values : List (String × SettingValue)
  deriving DecidableEq

/-- Property read `presets[k]`: own property first, then `Object.prototype`;
`none` is `undefined`. -/
def getProp (r : Registry) (k : String) : Option Entry :=
  match r.lookup k with
  | some e => some e
  | none => if k ∈ objectPrototypeKeys then some (Entry.inherited k) else none

/-- Property write `presets[k] = v`.  An own property is overwritten.  Otherwise the
write creates an own property, except for the key `__proto__`: that write goes to the
accessor inherited from `Object.prototype` and creates no own property.  The accessor
replaces the prototype of the object; the names a later read would inherit from the new
prototype are not modelled, so no result below chains a call after such a write. -/
def setProp (r : Registry) (k : String) (v : Entry) : Registry :=
  if k ∈ r then r.insert k v
  else if k = "__proto__" then r
  else r.insert k v

/-- Property removal `delete presets[k]`: removes an own property, if any. -/
def deleteProp (r : Registry) (k : String) : Registry :=
  r.erase k

/-- The number `Object.keys(presets).length` of own properties. -/
def keyCount (r : Registry) : Nat :=
  r.keys.length

/-- Write of one live setting value `settings[k] = v`. -/
def setValue (vs : List (String × SettingValue)) (k : String) (v : SettingValue) :
    List (String × SettingValue) :=
  if vs.any (fun p => p.1 == k) then vs.map (fun p => if p.1 = k then (k, v) else p)
  else vs ++ [(k, v)]

/-- Modelled from the spec: `applyPresetToSettings` lives in src/ui/preset-manager.js,
which is not among the sources.  Following the spec (section 4.3, Load): nothing
happens when the name is not in the registry; otherwise exactly the keys present in
the snapshot are copied onto the live setting values, and keys absent from the
snapshot keep their value.  The registry and `activePreset` are the two distinguished
fields of the settings object and are not setting values. -/
def applyPresetToSettings (presetName : String) (s : Settings) : Settings :=
  match s.presets.lookup presetName with
  | some (Entry.snapshot snap) =>
      { s with values := snap.foldl (fun vs p => setValue vs p.1 p.2) s.values }
  | _ => s

/-- Payload of the import/export file format.  `moonlitEchoesPreset` is the truthiness
of the marker field and `settings` is `none` when the field is missing or falsy; a
missing `presetName` is the falsy non-string `undefined`. -/
structure Payload where
  moonlitEchoesPreset : Bool
  presetVersion : Option String
  presetName : JSName
  settings : Option Entry
  deriving DecidableEq

namespace presets

/-- The function `presets.create(name, settingsObj)` (index.js lines 2515-2534);
`settingsObj = none` is an omitted or falsy argument, replaced by `{}`. -/
def create (name : JSName) (settingsObj : Option Snapshot) (s : Settings) :
    Bool × Settings :=
  if !name.truthy || !name.isString then (false, s)
  else
    (true, { s with
      presets := setProp s.presets name.toKey (Entry.snapshot (settingsObj.getD [])) })

/-- The function `presets.update(name, settingsObj)` (index.js lines 2542-2558). -/
def update (name : JSName) (settingsObj : Option Snapshot) (s : Settings) :
    Bool × Settings :=
  match getProp s.presets name.toKey with
  | none => (false, s)
  | some old =>
      let v : Entry :=
        match settingsObj with
        | some o => Entry.snapshot o
        | none => old
      (true, { s with presets := setProp s.presets name.toKey v })

/-- The function `presets.delete(name)` (index.js lines 2561-2596). -/
def delete (name : JSName) (s : Settings) : Bool × Settings :=
  if name = JSName.str "Default" then (false, s)
  else if (getProp s.presets name.toKey).isNone then (false, s)
  else if keyCount s.presets ≤ 1 then (false, s)
  else
    let s1 : Settings :=
      if name = JSName.str s.activePreset then
        applyPresetToSettings "Default" { s with activePreset := "Default" }
      else s
    (true, { s1 with presets := deleteProp s1.presets name.toKey })

/-- The function `presets.export(name)` (index.js lines 2599-2615); `none` is `null`. -/
def exportPreset (name : JSName) (s : Settings) : Option Payload :=
  match getProp s.presets name.toKey with
  | none => none
  | some e =>
      some { moonlitEchoesPreset := true
             presetVersion := some THEME_VERSION
             presetName := name
             settings := some e }

/-- The function `presets.import(jsonData)` (index.js lines 2618-2640);
`jsonData = none` is a falsy argument. -/
def importPreset (jsonData : Option Payload) (s : Settings) : Bool × Settings :=
  match jsonData with
  | none => (false, s)
  | some p =>
      if !p.moonlitEchoesPreset || !p.presetName.truthy then (false, s)
      else
        match p.settings with
        | none => (false, s)
        | some e => (true, { s with presets := setProp s.presets p.presetName.toKey e })

end presets

/-- One call of the mutating part of the preset API, with its arguments. -/
inductive Call
  | create (name : JSName) (settingsObj : Option Snapshot)
  | update (name : JSName) (settingsObj : Option Snapshot)
  | delete (name : JSName)
  | importPreset (jsonData : Option Payload)
  deriving DecidableEq

namespace Call

/-- Result and new settings state of a call. -/
def run : Call → Settings → Bool × Settings
  | create name o, s => presets.create name o s
  | update name o, s => presets.update name o s
  | delete name, s => presets.delete name s
  | importPreset p, s => presets.importPreset p s

/-- Holds when the call passes a string wherever `presets.delete` expects the name. -/
def deleteNameIsString : Call → Bool
  | delete name => name.isString
  | _ => true

end Call

/-- State invariant of the data model: `Default` is a key of the registry and
`activePreset` is a key of the registry. -/
def PresetInvariant (s : Settings) : Prop :=
  "Default" ∈ s.presets ∧ s.activePreset ∈ s.presets

/-- Registry built from a list of named entries (later names override earlier ones). -/
def registryOf (l : List (String × Entry)) : Registry :=
  l.foldl (fun r p => r.insert p.1 p.2) ∅

/-- Example state: the registry holds only `Default`, which is active. -/
def onlyDefault : Settings :=
  { presets := registryOf [("Default", Entry.snapshot [])]
    activePreset := "Default"
    values := [] }

/-- Example state of the spec scenario: `Default` and `Dusk - by Rivelle`, the latter
active, with one setting differing between the two. -/
def duskActive : Settings :=
  { presets := registryOf
      [("Default", Entry.snapshot [("fontColor", SettingValue.str "#000")]),
       ("Dusk - by Rivelle", Entry.snapshot [("fontColor", SettingValue.str "#fff")])]
    activePreset := "Dusk - by Rivelle"
    values := [("fontColor", SettingValue.str "#fff")] }

/-- Example payload of the spec scenario: the preset `MyPreset` with one setting. -/
def myPresetPayload : Payload :=
  { moonlitEchoesPreset := true
    presetVersion := some "3.0.0"
    presetName := JSName.str "MyPreset"
    settings := some (Entry.snapshot [("fontColor", SettingValue.str "#fff")]) }

/-- Example payload whose preset name is `__proto__`. -/
def protoPayload : Payload :=
  { moonlitEchoesPreset := true
    presetVersion := some "3.0.0"
    presetName := JSName.str "__proto__"
    settings := some (Entry.snapshot [("fontColor", SettingValue.str "#fff")]) }

/-! The host theme selector, the listeners and the event handlers of index.js -/

/-- One option of the host select element `themes`: its value and its label. -/
structure ThemeOption where
  value : String
  label : String
  deriving DecidableEq, Repr

/-- Functions that index.js registers as event listeners; `hintRefresh` is the
anonymous closure that `addThemeButtonsHint` registers on the theme selector. -/
inductive Handler
  | handleMoonlitThemeChange
  | handleMoonlitImportButtonClick
  | handleMoonlitExportButtonClick
  | handleMoonlitUpdateButtonClick
  | handleMoonlitSaveButtonClick
  | handleMoonlitDeleteButtonClick
  | handleMoonlitPresetFileImport
  | hintRefresh
  deriving DecidableEq, Repr

/-- Listener state of a DOM element: the listeners registered through
`addEventListener`, in order, and the object stored under `MOONLIT_LISTENER_KEY`
(`none` while the property is not set). -/
structure Listeners where
  registered : List (String × Handler)
  managed : Option (List (String × Handler))
  deriving DecidableEq, Repr

/-- The host select element `themes`: its options in order, the selected index
(`none` is the DOM value -1) and its listener state. -/
structure ThemeSelector where
  options : List ThemeOption
  selectedIndex : Option Nat
  listeners : Listeners
  deriving DecidableEq, Repr

namespace ThemeSelector

/-- The property `themeSelector.value`: the value of the selected option, the empty
string when no option is selected. -/
def value (sel : ThemeSelector) : String :=
  match sel.selectedIndex with
  | none => ""
  | some i =>
      match sel.options.get? i with
      | some o => o.value
      | none => ""

end ThemeSelector

/-- The part of the document that index.js looks up by id: the theme selector, the
preset buttons and file input of the host (each `none` when absent), whether the block
`UI-presets-block` exists, and the hint element `moonlit-theme-buttons-hint` (`none`
when absent; `some true` when it carries the wording for a `- by Rivelle` theme). -/
structure Dom where
  themes : Option ThemeSelector
  importButton : Option Listeners
  exportButton : Option Listeners
  deleteButton : Option Listeners
  updateButton : Option Listeners
  saveButton : Option Listeners
  importFileInput : Option Listeners
  presetsBlock : Bool
  hint : Option Bool
  deriving DecidableEq, Repr

/-- The state the handlers act on: the extension settings and the document. -/
structure World where
  settings : Settings
  dom : Dom

namespace SettingValue

/-- Truthiness of a setting value. -/
def truthy : SettingValue → Bool
  | str s => decide (s ≠ "")
  | num n => decide (n ≠ 0)
  | bool b => b

end SettingValue

/-- The test `settings.enabled` on the flat setting values (a missing value is falsy). -/
def Settings.enabled (s : Settings) : Bool :=
  match s.values.lookup "enabled" with
  | some v => v.truthy
  | none => false

/-- The loop of `updateThemeSelector` (index.js lines 758-764), started at index `i` on
the options from `i` on: the index of the first option whose value is strictly equal
to `presetName`, if there is one. -/
def findOption (presetName : JSName) : List ThemeOption → Nat → Option Nat
  | [], _ => none
  | o :: rest, i =>
      if JSName.str o.value = presetName then some i
      else findOption presetName rest (i + 1)

/-- The function `updateThemeSelector(presetName)` (index.js lines 750-770).  The result
is the document and the number of `change` events the call dispatched on the selector;
what the listeners of that event do is not part of this function. -/
def updateThemeSelector (presetName : JSName) (dom : Dom) : Dom × Nat :=
  match dom.themes with
  | none => (dom, 0)
  | some sel =>
      match findOption presetName sel.options 0 with
      | some i => ({ dom with themes := some { sel with selectedIndex := some i } }, 1)
      | none => (dom, 0)

/-- The call `element.addEventListener(eventType, handler)`: a listener that is already
registered for the event type is not registered twice. -/
def addEventListener (reg : List (String × Handler)) (eventType : String) (h : Handler) :
    List (String × Handler) :=
  if (eventType, h) ∈ reg then reg else reg ++ [(eventType, h)]

/-- The call `element.removeEventListener(eventType, handler)`. -/
def removeEventListener (reg : List (String × Handler)) (eventType : String)
    (h : Handler) : List (String × Handler) :=
  reg.erase (eventType, h)

/-- The assignment `attachedHandlers[eventType] = handler`. -/
def setManaged (m : List (String × Handler)) (eventType : String) (h : Handler) :
    List (String × Handler) :=
  if m.any (fun p => p.1 == eventType) then
    m.map (fun p => if p.1 = eventType then (eventType, h) else p)
  else m ++ [(eventType, h)]

/-- The function `attachMoonlitListener(element, eventType, handler)` (index.js lines
357-375); `none` is a null element. -/
def attachMoonlitListener (element : Option Listeners) (eventType : String)
    (handler : Handler) : Option Listeners :=
  match element with
  | none => none
  | some el =>
      let attachedHandlers := el.managed.getD []
      match attachedHandlers.lookup eventType with
      | some old =>
          if old = handler then
            some { el with managed := some attachedHandlers }
          else
            some { registered :=
                     addEventListener (removeEventListener el.registered eventType old)
                       eventType handler
                   managed := some (setManaged attachedHandlers eventType handler) }
      | none =>
          some { registered := addEventListener el.registered eventType handler
                 managed := some (setManaged attachedHandlers eventType handler) }

/-- The test `currentTheme.includes('- by Rivelle')`. -/
def includesByRivelle (currentTheme : String) : Bool :=
  decide ("- by Rivelle".data <:+: currentTheme.data)

/-- The function `addThemeButtonsHint()` (index.js lines 676-740). -/
def addThemeButtonsHint (w : World) : World :=
  if !w.dom.presetsBlock then w
  else if !w.settings.enabled then { w with dom := { w.dom with hint := none } }
  else if w.dom.hint.isSome then w
  else
    let currentTheme : String :=
      match w.dom.themes with
      | some sel => sel.value
      | none => ""
    let themes : Option ThemeSelector :=
      match w.dom.themes with
      | some sel =>
          some { sel with
            listeners := { sel.listeners with
              registered := sel.listeners.registered ++ [("change", Handler.hintRefresh)] } }
      | none => none
    { w with dom := { w.dom with hint := some (includesByRivelle currentTheme)
                                 themes := themes } }

/-- The function `integrateWithThemeSelector()` (index.js lines 329-355). -/
def integrateWithThemeSelector (w : World) : World :=
  match w.dom.themes with
  | none => w
  | some sel =>
      let d := w.dom
      let selListeners :=
        (attachMoonlitListener (some sel.listeners) "change"
          Handler.handleMoonlitThemeChange).getD sel.listeners
      let importButton :=
        if d.importButton.isSome && d.importFileInput.isSome then
          attachMoonlitListener d.importButton "click" Handler.handleMoonlitImportButtonClick
        else d.importButton
      let d1 : Dom :=
        { d with
          themes := some { sel with listeners := selListeners }
          importButton := importButton
          exportButton :=
            attachMoonlitListener d.exportButton "click"
              Handler.handleMoonlitExportButtonClick
          updateButton :=
            attachMoonlitListener d.updateButton "click"
              Handler.handleMoonlitUpdateButtonClick
          saveButton :=
            attachMoonlitListener d.saveButton "click" Handler.handleMoonlitSaveButtonClick
          deleteButton :=
            attachMoonlitListener d.deleteButton "click"
              Handler.handleMoonlitDeleteButtonClick
          importFileInput :=
            attachMoonlitListener d.importFileInput "change"
              Handler.handleMoonlitPresetFileImport }
      addThemeButtonsHint { w with dom := d1 }

/-- The function `isMoonlitPreset(presetName)` (index.js lines 382-387): false for a
falsy name, otherwise the own-property test on the registry. -/
def isMoonlitPreset (presetName : String) (s : Settings) : Bool :=
  if presetName = "" then false else decide (presetName ∈ s.presets)

/-- The function `isMoonlitPresetSelected()` (index.js lines 389-393). -/
def isMoonlitPresetSelected (w : World) : Bool :=
  match w.dom.themes with
  | none => false
  | some sel => isMoonlitPreset sel.value w.settings

/-- A value returned by `JSON.parse`; numbers are kept as integers, which is enough for
their truthiness. -/
inductive JSON
  | null
  | bool (b : Bool)
  | num (n : Int)
  | str (s : String)
  | arr (items : List JSON)
  | obj (props : List (String × JSON))

namespace JSON

/-- Truthiness of a parsed value. -/
def truthy : JSON → Bool
  | null => false
  | bool b => b
  | num n => decide (n ≠ 0)
  | str s => decide (s ≠ "")
  | arr _ => true
  | obj _ => true

/-- The property read `jsonData.moonlitEchoesPreset`: a TypeError (`none`) on `null`;
on an object the value of the property, on an object without it and on every other
value `undefined`, of which only the truthiness (false) is kept. -/
def markerTruthy : JSON → Option Bool
  | null => none
  | obj props =>
      match props.lookup "moonlitEchoesPreset" with
      | some v => some v.truthy
      | none => some false
  | _ => some false

end JSON

/-- An error thrown by a JavaScript function, given by its message. -/
abbrev JSError := String

/-- The preset operations that index.js imports from src/ui/preset-manager.js, which is
not among the sources.  They are parameters of the handlers: each maps the state to a
new state and possibly throws (`some error`). -/
structure PresetOps where
  loadPreset : String → World → World × Option JSError
  importPreset : World → World × Option JSError
  exportActivePreset : World → World × Option JSError
  updateCurrentPreset : World → World × Option JSError
  saveAsNewPreset : World → World × Option JSError
  deleteCurrentPreset : World → World × Option JSError
  handleMoonlitPresetImport : JSON → World → World × Option JSError

/-- A call of a preset operation, with its argument. -/
inductive OpCall
  | loadPreset (name : String)
  | importPreset
  | exportActivePreset
  | updateCurrentPreset
  | saveAsNewPreset
  | deleteCurrentPreset
  | handleMoonlitPresetImport (jsonData : JSON)

/-- What running an event handler yields: the new state, the preset operations it
called, in order, and the error that escaped the handler (`none` when the handler
returned normally). -/
structure HandlerResult where
  world : World
  calls : List OpCall
  error : Option JSError

/-- The function `handleMoonlitThemeChange(event)` (index.js lines 395-414);
`currentTarget` is `event?.currentTarget`, `none` when it is null or undefined. -/
def handleMoonlitThemeChange (ops : PresetOps) (currentTarget : Option ThemeSelector)
    (w : World) : HandlerResult :=
  let themeSelector : Option ThemeSelector :=
    match currentTarget with
    | some sel => some sel
    | none => w.dom.themes
  match themeSelector with
  | none => { world := w, calls := [], error := none }
  | some sel =>
      let selectedTheme := sel.value
      if !isMoonlitPreset selectedTheme w.settings then
        { world := w, calls := [], error := none }
      else if w.settings.activePreset = selectedTheme then
        { world := w, calls := [], error := none }
      else
        { world := (ops.loadPreset selectedTheme w).1
          calls := [OpCall.loadPreset selectedTheme]
          error := none }

/-- The function `handleMoonlitImportButtonClick()` (index.js lines 416-420). -/
def handleMoonlitImportButtonClick (ops : PresetOps) (w : World) : HandlerResult :=
  if isMoonlitPresetSelected w then
    { world := (ops.importPreset w).1
      calls := [OpCall.importPreset]
      error := (ops.importPreset w).2 }
  else { world := w, calls := [], error := none }

/-- The function `handleMoonlitExportButtonClick()` (index.js lines 422-426). -/
def handleMoonlitExportButtonClick (ops : PresetOps) (w : World) : HandlerResult :=
  if isMoonlitPresetSelected w then
    { world := (ops.exportActivePreset w).1
      calls := [OpCall.exportActivePreset]
      error := (ops.exportActivePreset w).2 }
  else { world := w, calls := [], error := none }

/-- The function `handleMoonlitUpdateButtonClick()` (index.js lines 428-432). -/
def handleMoonlitUpdateButtonClick (ops : PresetOps) (w : World) : HandlerResult :=
  if isMoonlitPresetSelected w then
    { world := (ops.updateCurrentPreset w).1
      calls := [OpCall.updateCurrentPreset]
      error := (ops.updateCurrentPreset w).2 }
  else { world := w, calls := [], error := none }

/-- The function `handleMoonlitSaveButtonClick()` (index.js lines 434-438). -/
def handleMoonlitSaveButtonClick (ops : PresetOps) (w : World) : HandlerResult :=
  if isMoonlitPresetSelected w then
    { world := (ops.saveAsNewPreset w).1
      calls := [OpCall.saveAsNewPreset]
      error := (ops.saveAsNewPreset w).2 }
  else { world := w, calls := [], error := none }

/-- The function `handleMoonlitDeleteButtonClick()` (index.js lines 440-444). -/
def handleMoonlitDeleteButtonClick (ops : PresetOps) (w : World) : HandlerResult :=
  if isMoonlitPresetSelected w then
    { world := (ops.deleteCurrentPreset w).1
      calls := [OpCall.deleteCurrentPreset]
      error := (ops.deleteCurrentPreset w).2 }
  else { world := w, calls := [], error := none }

/-- The `reader.onload` callback of `handleMoonlitPresetFileImport` (index.js lines
451-460), run on the text of the file.  `parse` is `JSON.parse`, with `none` for a
SyntaxError; every error raised inside the `try` block is caught. -/
def onPresetFileLoaded (parse : String → Option JSON) (ops : PresetOps) (text : String)
    (w : World) : HandlerResult :=
  match parse text with
  | none => { world := w, calls := [], error := none }
  | some jsonData =>
      match jsonData.markerTruthy with
      | none => { world := w, calls := [], error := none }
      | some true =>
          { world := (ops.handleMoonlitPresetImport jsonData w).1
            calls := [OpCall.handleMoonlitPresetImport jsonData]
            error := none }
      | some false => { world := w, calls := [], error := none }

/-- The function `handleMoonlitPresetFileImport(event)` (index.js lines 446-462);
`file` is the text of `event?.target?.files?.[0]`, `none` when there is no file.  The
file is read to completion and the `onload` callback runs on its text. -/
def handleMoonlitPresetFileImport (parse : String → Option JSON) (ops : PresetOps)
    (file : Option String) (w : World) : HandlerResult :=
  match file with
  | none => { world := w, calls := [], error := none }
  | some text => onPresetFileLoaded parse ops text w

/-- Preset operations that change nothing and never throw. -/
def quietOps : PresetOps :=
  { loadPreset := fun _ w => (w, none)
    importPreset := fun w => (w, none)
    exportActivePreset := fun w => (w, none)
    updateCurrentPreset := fun w => (w, none)
    saveAsNewPreset := fun w => (w, none)
    deleteCurrentPreset := fun w => (w, none)
    handleMoonlitPresetImport := fun _ w => (w, none) }

/-- Preset operations that all throw and change nothing. -/
def throwingOps : PresetOps :=
  { loadPreset := fun _ w => (w, some "failed")
    importPreset := fun w => (w, some "failed")
    exportActivePreset := fun w => (w, some "failed")
    updateCurrentPreset := fun w => (w, some "failed")
    saveAsNewPreset := fun w => (w, some "failed")
    deleteCurrentPreset := fun w => (w, some "failed")
    handleMoonlitPresetImport := fun _ w => (w, some "failed") }

/-- Example element without listeners. -/
def bareElement : Listeners :=
  { registered := [], managed := none }

/-- Example selector: a foreign theme, `Default` and `Dusk - by Rivelle`, with
`Default` selected. -/
def exampleSelector : ThemeSelector :=
  { options := [{ value := "Dark Lite", label := "Dark Lite" },
                { value := "Default", label := "Default" },
                { value := "Dusk - by Rivelle", label := "Dusk - by Rivelle" }]
    selectedIndex := some 1
    listeners := bareElement }

/-- Example document with the selector and all host buttons present. -/
def exampleDom : Dom :=
  { themes := some exampleSelector
    importButton := some bareElement
    exportButton := some bareElement
    deleteButton := some bareElement
    updateButton := some bareElement
    saveButton := some bareElement
    importFileInput := some bareElement
    presetsBlock := true
    hint := none }

/-- Example document in which the host selector is absent. -/
def domWithoutSelector : Dom :=
  { exampleDom with themes := none }

/-- Example state of the handlers: the registry `{Default}` and the example document. -/
def exampleWorld : World :=
  { settings := onlyDefault, dom := exampleDom }

/-- Example state of the handlers in which the host selector is absent. -/
def worldWithoutSelector : World :=
  { settings := onlyDefault, dom := domWithoutSelector }

/-- Example state of the handlers: the registry `{Default, Dusk - by Rivelle}` with
`Dusk - by Rivelle` active, and the example document, in which `Default` is selected. -/
def duskWorld : World :=
  { settings := duskActive, dom := exampleDom }

/-- Example selector whose selected option has the empty string as value. -/
def emptyNameSelector : ThemeSelector :=
  { options := [{ value := "", label := "(none)" },
                { value := "Default", label := "Default" }]
    selectedIndex := some 0
    listeners := bareElement }

/-- Example state in which the empty string is a key of the registry and the option
with the empty value is selected, while `Default` is active. -/
def emptyNameWorld : World :=
  { settings :=
      { presets := registryOf [("Default", Entry.snapshot []), ("", Entry.snapshot [])]
        activePreset := "Default"
        values := [] }
    dom := { exampleDom with themes := some emptyNameSelector } }

/-- Stand-in for `JSON.parse` on four texts: the object with a true marker, the empty
object, `null`, and (for every other text) a SyntaxError. -/
def exampleParse (text : String) : Option JSON :=
  if text = "\x7b\"moonlitEchoesPreset\":true\x7d" then
    some (JSON.obj [("moonlitEchoesPreset", JSON.bool true)])
  else if text = "\x7b\x7d" then some (JSON.obj [])
  else if text = "null" then some JSON.null
  else none

/-! Chat display styles: `switchChatStyle` and `applyChatDisplayStyle` -/

/-- The eight chat-style classes that `switchChatStyle` (index.js lines 118-127) and
`applyChatDisplayStyle` (lines 2333-2337) remove from the body, in source order. -/
def chatStyleClasses : List String :=
  ["flatchat", "bubblechat", "documentstyle", "echostyle", "whisperstyle", "hushstyle",
   "ripplestyle", "tidestyle"]

/-- The call `classList.remove(...names)`: every listed token is removed. -/
def classListRemove (classes names : List String) : List String :=
  classes.filter (fun c => decide (c ∉ names))

/-- Whether `classList.add` accepts the token: it throws on the empty string and on a
token that contains ASCII whitespace. -/
def validToken (name : String) : Bool :=
  decide (name ≠ "") &&
    name.data.all (fun c => decide (c.toNat ∉ [9, 10, 12, 13, 32]))

/-- The call `classList.add(name)` for a valid token: the token is appended unless it
is already present. -/
def classListAdd (classes : List String) (name : String) : List String :=
  if name ∈ classes then classes else classes ++ [name]

/-- The select element `chat_display`: the values of its options and its current
value (the empty string when no option is selected). -/
structure ChatDisplaySelect where
  options : List String
  value : String
  deriving DecidableEq, Repr

/-- The assignment `chatDisplaySelect.value = v`: the option with that value becomes
selected; without such an option nothing is selected and the value reads as empty. -/
def ChatDisplaySelect.setValue (sel : ChatDisplaySelect) (v : String) : ChatDisplaySelect :=
  { sel with value := if v ∈ sel.options then v else "" }

/-- The function `applyChatDisplayStyle()` of `initChatDisplaySwitcher` (index.js lines
2332-2349), which exists only when `chat_display` is present: the new class list of
the body. -/
def applyChatDisplayStyle (chatDisplaySelect : ChatDisplaySelect)
    (bodyClasses : List String) : List String :=
  let cleared := classListRemove bodyClasses chatStyleClasses
  match chatDisplaySelect.value with
  | "0" => classListAdd cleared "flatchat"
  | "1" => classListAdd cleared "bubblechat"
  | "2" => classListAdd cleared "documentstyle"
  | "3" => classListAdd cleared "echostyle"
  | "4" => classListAdd cleared "whisperstyle"
  | "5" => classListAdd cleared "hushstyle"
  | "6" => classListAdd cleared "ripplestyle"
  | "7" => classListAdd cleared "tidestyle"
  | _ => cleared

/-- The part of the page `switchChatStyle` acts on: the select `chat_display` (`none`
when absent), the class list of the body, the local storage, and whether
`localStorage.setItem` succeeds (it throws when storage is full or blocked). -/
structure Page where
  chatDisplay : Option ChatDisplaySelect
  bodyClasses : List String
  localStorage : List (String × String)
  storageWritable : Bool
  deriving DecidableEq, Repr

/-- What `switchChatStyle` returns: the message that the selector was not found, the
message that the style was switched, or the message of a caught error. -/
inductive SwitchResult
  | selectorNotFound
  | switched (styleName : String)
  | errorCaught
  deriving DecidableEq, Repr

/-- The call `localStorage.setItem(key, value)` on a writable storage. -/
def storageSetItem (store : List (String × String)) (key value : String) :
    List (String × String) :=
  (key, value) :: store.filter (fun p => decide (p.1 ≠ key))

/-- The function `switchChatStyle(styleName, styleValue)` of `initializeSlashCommands`
(index.js lines 106-139).  An exception raised by `classList.add` or by
`localStorage.setItem` is caught after the earlier statements have taken effect. -/
def switchChatStyle (styleName styleValue : String) (p : Page) : SwitchResult × Page :=
  match p.chatDisplay with
  | none => (SwitchResult.selectorNotFound, p)
  | some sel =>
      let p1 : Page :=
        { p with chatDisplay := some (sel.setValue styleValue)
                 bodyClasses := classListRemove p.bodyClasses chatStyleClasses }
      if !validToken styleName then (SwitchResult.errorCaught, p1)
      else
        let p2 : Page := { p1 with bodyClasses := classListAdd p1.bodyClasses styleName }
        if !p.storageWritable then (SwitchResult.errorCaught, p2)
        else
          (SwitchResult.switched styleName,
           { p2 with localStorage :=
               storageSetItem p2.localStorage "savedChatStyle" styleValue })

/-- One slash command registered by `initializeSlashCommands` (index.js lines 141-220):
its name and the arguments its callback passes to `switchChatStyle`. -/
structure SlashCommandReg where
  name : String
  styleName : String
  styleValue : String
  deriving DecidableEq, Repr

/-- The eight registered slash commands, in source order. -/
def slashCommands : List SlashCommandReg :=
  [{ name := "echostyle", styleName := "echostyle", styleValue := "3" },
   { name := "whisperstyle", styleName := "whisperstyle", styleValue := "4" },
   { name := "hushstyle", styleName := "hushstyle", styleValue := "5" },
   { name := "ripplestyle", styleName := "ripplestyle", styleValue := "6" },
   { name := "tidestyle", styleName := "tidestyle", styleValue := "7" },
   { name := "moonlit-bubble", styleName := "bubblechat", styleValue := "1" },
   { name := "moonlit-flat", styleName := "flatchat", styleValue := "0" },
   { name := "moonlit-document", styleName := "documentstyle", styleValue := "2" }]

/-- The mapping the claims state in words: the selector values "0" to "7" stand, in
that order, for the eight chat-style classes; every other value stands for none. -/
def styleClassOfValue (value : String) : Option String :=
  (["0", "1", "2", "3", "4", "5", "6", "7"].zip chatStyleClasses).lookup value

/-- Example page: `chat_display` holds the eight options with "1" selected, the body
carries a foreign class and the bubble style. -/
def examplePage : Page :=
  { chatDisplay := some { options := ["0", "1", "2", "3", "4", "5", "6", "7"], value := "1" }
    bodyClasses := ["no-blur", "bubblechat"]
    localStorage := []
    storageWritable := true }

/-- Example page on which `addCustomStyleOptions` has not run: `chat_display` holds the
three options of the host only, with "1" selected. -/
def hostOnlyPage : Page :=
  { chatDisplay := some { options := ["0", "1", "2"], value := "1" }
    bodyClasses := ["no-blur", "bubblechat"]
    localStorage := []
    storageWritable := true }

/-! Custom settings: `addCustomSetting`, the default-filling step of `initExtension`,
and the checkbox styles -/

/-- One entry of `themeCustomSettings`, with the fields index.js reads in the modelled
functions (`none` is a missing field). -/
structure SettingConfig where
  varId : Option String
  type : Option String
  default : Option SettingValue
  cssBlock : Option String
  cssFile : Option String
  deriving DecidableEq, Repr

/-- Truthiness of an optional string field: a missing field and the empty string are
falsy. -/
def truthyString : Option String → Bool
  | some s => decide (s ≠ "")
  | none => false

/-- The test `settings[k] !== undefined` on the settings object: the two distinguished
fields, the flat setting values, and the names inherited from `Object.prototype`. -/
def settingDefined (s : Settings) (k : String) : Bool :=
  decide (k = "presets") || decide (k = "activePreset") || (s.values.lookup k).isSome ||
    decide (k ∈ objectPrototypeKeys)

/-- The module variable `themeCustomSettings` together with the settings object. -/
structure ThemeState where
  themeCustomSettings : List SettingConfig
  settings : Settings

/-- The function `addCustomSetting(settingConfig)` (index.js lines 2421-2467), up to the
re-rendering of the settings panel; `none` is a missing configuration.  A setting
without `default` leaves the value undefined. -/
def addCustomSetting (settingConfig : Option SettingConfig) (st : ThemeState) :
    ThemeState :=
  match settingConfig with
  | none => st
  | some cfg =>
      if !truthyString cfg.varId || !truthyString cfg.type then st
      else if (st.themeCustomSettings.find? (fun s => decide (s.varId = cfg.varId))).isSome
      then st
      else
        let varId := cfg.varId.getD ""
        let settings : Settings :=
          if settingDefined st.settings varId then st.settings
          else
            match cfg.default with
            | some v => { st.settings with values := setValue st.settings.values varId v }
            | none => st.settings
        { themeCustomSettings := st.themeCustomSettings ++ [cfg], settings := settings }

/-- The default-filling loop of `initExtension` (index.js lines 67-72).
`defaultSettings` (src/config/default-settings.js, not among the sources) is a
parameter: its keys in the order of `Object.keys`, each with its value; the values
under `presets` and `activePreset` are never read by the loop. -/
def fillDefaults (defaultSettings : List (String × SettingValue)) (s : Settings) :
    Settings :=
  defaultSettings.foldl
    (fun ext kv =>
      if kv.1 ≠ "presets" ∧ kv.1 ≠ "activePreset" ∧ settingDefined ext kv.1 = false then
        { ext with values := setValue ext.values kv.1 kv.2 }
      else ext)
    s

/-- A sequence of `attachMoonlitListener` calls on one element, each given by its event
type and handler. -/
def attachAll (element : Option Listeners) (calls : List (String × Handler)) :
    Option Listeners :=
  calls.foldl (fun el c => attachMoonlitListener el c.1 c.2) element

/-- The style elements `css-block-<varId>` of the document: each varId with the
`textContent` of its element. -/
abbrev StyleElements := List (String × String)

/-- The function `clearAllCheckboxStyles()` (index.js lines 843-848). -/
def clearAllCheckboxStyles (styles : StyleElements) : StyleElements :=
  styles.map (fun p => (p.1, ""))

/-- The assignment `styleElement.textContent = text` on the element that
`document.getElementById` finds for the varId (the first one); nothing happens when
there is none. -/
def setStyleText : StyleElements → String → String → StyleElements
  | [], _, _ => []
  | p :: rest, varId, text =>
      if p.1 = varId then (p.1, text) :: rest else p :: setStyleText rest varId text

/-- The function `updateAllCheckboxStyles(extensionEnabled)` (index.js lines 854-880). -/
def updateAllCheckboxStyles (extensionEnabled : Bool)
    (themeCustomSettings : List SettingConfig) (s : Settings) (styles : StyleElements) :
    StyleElements :=
  if !extensionEnabled then clearAllCheckboxStyles styles
  else
    themeCustomSettings.foldl
      (fun st setting =>
        if setting.type = some "checkbox" ∧
            (truthyString setting.cssBlock || truthyString setting.cssFile) = true then
          let varId := setting.varId.getD "undefined"
          let enabled : Bool := decide (s.values.lookup varId = some (SettingValue.bool true))
          if truthyString setting.cssBlock && enabled then
            setStyleText st varId (setting.cssBlock.getD "")
          else setStyleText st varId ""
        else st)
      styles

/-- The functions `applyCss`, `loadExternalCss` and `updateInlineCssBlock` of
`createCheckbox` (index.js lines 2203-2254), run to completion on the style element
of the setting, which `createCheckbox` has created if it was missing.  `fetchCss` is
the text the fetch of the CSS file yields (`none` when the response is not ok or the
fetch fails). -/
def applyCss (fetchCss : String → Option String) (s : Settings) (setting : SettingConfig)
    (enabled : Bool) (styles : StyleElements) : StyleElements :=
  let varId := setting.varId.getD "undefined"
  let styles1 : StyleElements :=
    if styles.any (fun p => p.1 == varId) then styles else styles ++ [(varId, "")]
  if truthyString setting.cssFile then
    if !s.enabled || !enabled then setStyleText styles1 varId ""
    else
      match fetchCss (setting.cssFile.getD "") with
      | some cssText => setStyleText styles1 varId cssText
      | none => styles1
  else if truthyString setting.cssBlock then
    if !s.enabled then setStyleText styles1 varId ""
    else setStyleText styles1 varId (if enabled then setting.cssBlock.getD "" else "")
  else styles1

/-- Example checkbox setting whose CSS lives in an external file. -/
def fontCheckbox : SettingConfig :=
  { varId := some "enableCustomFont"
    type := some "checkbox"
    default := some (SettingValue.bool false)
    cssBlock := none
    cssFile := some "custom-font.css" }

/-- Example settings: the extension is enabled and the checkbox `enableCustomFont` is
checked. -/
def fontEnabledSettings : Settings :=
  { presets := registryOf [("Default", Entry.snapshot [])]
    activePreset := "Default"
    values := [("enabled", SettingValue.bool true),
               ("enableCustomFont", SettingValue.bool true)] }

/-- Stand-in for the fetch of a CSS file: the file `custom-font.css` holds one rule. -/
def exampleFetchCss (cssFile : String) : Option String :=
  if cssFile = "custom-font.css" then some "body \x7b font-family: serif; \x7d" else none

/-- Example style elements: the element of `enableCustomFont` holds the CSS of its
file. -/
def fontStyles : StyleElements :=
  [("enableCustomFont", "body \x7b font-family: serif; \x7d")]

/-- Example state for `addCustomSetting`: one registered colour setting. -/
def exampleThemeState : ThemeState :=
  { themeCustomSettings :=
      [{ varId := some "fontColor", type := some "color",
         default := some (SettingValue.str "#fff"), cssBlock := none, cssFile := none }]
    settings := duskActive }

/-- Consistency of the listener state of an element with the calls made so far: no
listener is registered twice, every managed handler is registered, and a handler that
was attached through `attachMoonlitListener` and is still registered is the managed
one of its event type. -/
def ManagedConsistent (el : Listeners) (done : List (String × Handler)) : Prop :=
  el.registered.Nodup ∧
  (∀ t h, (el.managed.getD []).lookup t = some h → (t, h) ∈ el.registered) ∧
  (∀ t h, (t, h) ∈ done → (t, h) ∈ el.registered → (el.managed.getD []).lookup t = some h)

/-- The handler attached by the most recent call for the event type `t` in a sequence
of `attachMoonlitListener` calls (`none` when no call was for `t`). -/
def lastAttached (calls : List (String × Handler)) (t : String) : Option Handler :=
  calls.foldl (fun acc c => if c.1 = t then some c.2 else acc) none

/-! The colour picker of `createColorPicker` -/

/-- A colour value of a setting.  The string `rgba(r, g, b, a)` is represented by its
four components; `getAlphaFromRgba` (src/utils/color.js, not among the sources) is
taken to return the fourth component and `rgbaToHex` the first three. -/
structure Rgba where
  r : Nat
  g : Nat
  b : Nat
  alpha : ℚ
  deriving DecidableEq

/-- The function `getAlphaFromRgba` on a colour value. -/
def getAlphaFromRgba (v : Rgba) : ℚ := v.alpha

/-- The JavaScript function `Math.round`: the nearest integer, halves rounded up.  The
argument is the exact rational; a product computed in double arithmetic can fall on
the other side of a half (0.285 * 100), which the results below do not depend on. -/
def mathRound (x : ℚ) : Int := ⌊x + 1 / 2⌋

/-- The assignment `alphaSlider.value = n` on a range input with min 0 and max 100. -/
def clampSlider (n : Int) : Nat :=
  if n < 0 then 0 else if 100 < n then 100 else n.toNat

/-- What the closure of one colour picker holds: the constant `currentValue` captured
when `createColorPicker` ran (index.js line 1623), the value of the hidden colour
input as red, green and blue, the value of the opacity slider, and the value stored
in `settings[varId]`. -/
structure ColorPicker where
  currentValue : Rgba
  colorInput : Nat × Nat × Nat
  alphaSlider : Nat
  stored : Rgba
  deriving DecidableEq

/-- The function `createColorPicker` (index.js lines 1620-1704) on a setting whose
stored value is `stored`: the closure state it sets up. -/
def createColorPicker (stored : Rgba) : ColorPicker :=
  { currentValue := stored
    colorInput := (stored.r, stored.g, stored.b)
    alphaSlider := clampSlider (mathRound (getAlphaFromRgba stored * 100))
    stored := stored }

/-- The function `updateColorAndAlpha()` (index.js lines 1946-1968): the stored value
becomes the colour of the colour input with the opacity of the slider. -/
def updateColorAndAlpha (p : ColorPicker) : ColorPicker :=
  { p with stored :=
      { r := p.colorInput.1, g := p.colorInput.2.1, b := p.colorInput.2.2
        alpha := (p.alphaSlider : ℚ) / 100 } }

/-- The `input` handler of the opacity slider (index.js lines 1814-1822) after the user
moved the slider to `percent`. -/
def onAlphaSliderInput (percent : Nat) (p : ColorPicker) : ColorPicker :=
  updateColorAndAlpha { p with alphaSlider := clampSlider (percent : Int) }

/-- What the user typed into the text box: a six-digit hex colour, a three-digit hex
colour, an `rgb(...)` or `rgba(...)` colour, or anything else. -/
inductive ColorText
  | hex6 (r g b : Nat)
  | hex3 (r g b : Nat)
  | rgba (v : Rgba)
  | invalid

/-- The `change` handler of the text box (index.js lines 1825-1881).  For a hex colour
the opacity is `getAlphaFromRgba(currentValue)`; a three-digit hex colour is not a
valid value of a colour input, which then holds `#000000`. -/
def onTextInputChange (text : ColorText) (p : ColorPicker) : ColorPicker :=
  let apply (hex : Nat × Nat × Nat) (alpha : ℚ) : ColorPicker :=
    { p with colorInput := hex
             alphaSlider := clampSlider (mathRound (alpha * 100))
             stored := { r := hex.1, g := hex.2.1, b := hex.2.2, alpha := alpha } }
  match text with
  | ColorText.hex6 r g b => apply (r, g, b) (getAlphaFromRgba p.currentValue)
  | ColorText.hex3 _ _ _ => apply (0, 0, 0) (getAlphaFromRgba p.currentValue)
  | ColorText.rgba v => apply (v.r, v.g, v.b) (getAlphaFromRgba v)
  | ColorText.invalid => p

/-- Example picker: created on an opaque red, then the opacity slider moved to 50. -/
def halfRedPicker : ColorPicker :=
  onAlphaSliderInput 50 (createColorPicker { r := 255, g := 0, b := 0, alpha := 1 })

/-! The synchronizer -/

/-- Modelled from the spec: `syncMoonlitPresetsWithThemeList` lives in
src/ui/preset-manager.js, which is not among the sources.  Following the spec (section
4.2): with K the current registry keys, every key of K that is not present as an
option is added as an option with value and label equal to the key; then every
extension-owned option without a matching key in K is removed, where an option is
extension-owned when its value is a current or a prior registry key (`priorKeys`, the
keys tracked across the edit); options whose value is neither are never touched; and
when the host selector is absent (`none`) the synchronizer does nothing. -/
def syncMoonlitPresetsWithThemeList (priorKeys : List String) (registry : Registry)
    (options : Option (List ThemeOption)) : Option (List ThemeOption) :=
  match options with
  | none => none
  | some opts =>
      let keys := registry.keys
      let missing := keys.filter (fun k => decide (k ∉ opts.map (fun o => o.value)))
      let added := opts ++ missing.map (fun k => { value := k, label := k })
      some (added.filter
        (fun o => !(decide (o.value ∈ priorKeys ∨ o.value ∈ keys) && decide (o.value ∉ keys))))

/-! Avatar sources: `stripOrigin`, `parseAvatarSource` and `getAvatarSources` of
src/core/observers.js -/

/-- A JavaScript string, as the list of its characters. -/
abbrev JSString := List Char

/-- What `parseAvatarSource` reads of a parsed URL: `parsed.pathname` and the results
of `parsed.searchParams.get('type')` and `parsed.searchParams.get('file')` (`none` is
`null`). -/
structure UrlParts where
  pathname : JSString
  type : Option JSString
  file : Option JSString
  deriving DecidableEq

/-- The browser functions observers.js calls: `window.location.origin`, the
constructor `new URL(input, origin)` (`none` when it throws), `decodeURIComponent`
(`none` when it throws a URIError) and `encodeURIComponent`. -/
structure Browser where
  origin : JSString
  parseUrl : JSString → Option UrlParts
  decodeURIComponent : JSString → Option JSString
  encodeURIComponent : JSString → JSString

/-- The function `stripOrigin(url)` (observers.js lines 3-9).  When the URL starts with
the origin, the first occurrence that `replace` removes is that prefix. -/
def stripOrigin (B : Browser) (url : JSString) : JSString :=
  if url = [] then []
  else if B.origin.isPrefixOf url then url.drop B.origin.length
  else url

/-- The object `parseAvatarSource` returns: `type` (`none` is `null`) and `file`. -/
structure AvatarInfo where
  type : Option JSString
  file : JSString
  deriving DecidableEq

/-- The `try` block of `parseAvatarSource` (observers.js lines 17-28): the result it
returns, `none` when it falls through or an error is caught. -/
def parseThumbnailUrl (B : Browser) (normalized : JSString) : Option AvatarInfo :=
  match B.parseUrl normalized with
  | none => none
  | some parsed =>
      if "thumbnail".toList.isSuffixOf parsed.pathname then
        match parsed.type, parsed.file with
        | some type, some file =>
            if type ≠ [] ∧ file ≠ [] then
              match B.decodeURIComponent file with
              | some decoded => some { type := some type, file := decoded }
              | none => none
            else none
        | _, _ => none
      else none

/-- The function `parseAvatarSource(rawSrc)` (observers.js lines 11-39); `none` as
argument is a missing source, `none` as result is `null`. -/
def parseAvatarSource (B : Browser) (rawSrc : Option JSString) : Option AvatarInfo :=
  match rawSrc with
  | none => none
  | some src =>
      if src = [] then none
      else
        let normalized := stripOrigin B src
        let trimmed := if "/".toList.isPrefixOf normalized then normalized.drop 1 else normalized
        match parseThumbnailUrl B normalized with
        | some info => some info
        | none =>
            if "characters/".toList.isPrefixOf trimmed then
              some { type := some "avatar".toList, file := trimmed.drop 11 }
            else if "User Avatars/".toList.isPrefixOf trimmed then
              some { type := some "persona".toList, file := trimmed.drop 13 }
            else some { type := none, file := trimmed }

/-- The helper `ensureAbsolute(path)` of `getAvatarSources`. -/
def ensureAbsolute (path : JSString) : JSString :=
  if path = [] then []
  else if "/".toList.isPrefixOf path then path
  else "/".toList ++ path

/-- The object `getAvatarSources` returns (`none` is `null`). -/
structure AvatarSources where
  thumb : Option JSString
  original : Option JSString
  deriving DecidableEq

/-- The function `getAvatarSources(rawSrc)` (observers.js lines 41-69). -/
def getAvatarSources (B : Browser) (rawSrc : Option JSString) : AvatarSources :=
  match parseAvatarSource B rawSrc with
  | none => { thumb := none, original := none }
  | some info =>
      let thumb : JSString :=
        if info.type = some "avatar".toList ∨ info.type = some "persona".toList then
          "/thumbnail?type=".toList ++ info.type.getD [] ++ "&file=".toList ++
            B.encodeURIComponent info.file
        else ensureAbsolute info.file
      let original : JSString :=
        if info.type = some "avatar".toList then
          ensureAbsolute ("characters/".toList ++ info.file)
        else if info.type = some "persona".toList then
          ensureAbsolute ("User Avatars/".toList ++ info.file)
        else ensureAbsolute info.file
      { thumb := some (stripOrigin B thumb), original := some (stripOrigin B original) }

/-! A model of the browser functions, used to evaluate the avatar functions on concrete
sources -/

/-- The value of a hexadecimal digit. -/
def hexValue (c : Char) : Option Nat :=
  let n := c.toNat
  if 48 ≤ n ∧ n ≤ 57 then some (n - 48)
  else if 65 ≤ n ∧ n ≤ 70 then some (n - 55)
  else if 97 ≤ n ∧ n ≤ 102 then some (n - 87)
  else none

/-- The upper-case hexadecimal digit of a value below 16. -/
def hexDigit (n : Nat) : Char :=
  Char.ofNat (if n < 10 then 48 + n else 55 + n)

/-- The UTF-8 bytes of a character. -/
def utf8Bytes (c : Char) : List Nat :=
  let n := c.toNat
  if n < 128 then [n]
  else if n < 2048 then [192 + n / 64, 128 + n % 64]
  else if n < 65536 then [224 + n / 4096, 128 + n / 64 % 64, 128 + n % 64]
  else [240 + n / 262144, 128 + n / 4096 % 64, 128 + n / 64 % 64, 128 + n % 64]

/-- The characters `encodeURIComponent` leaves as they are: letters, digits and
`- _ . ! ~ * ' ( )`. -/
def isUnreserved (c : Char) : Bool :=
  let n := c.toNat
  decide ((48 ≤ n ∧ n ≤ 57) ∨ (65 ≤ n ∧ n ≤ 90) ∨ (97 ≤ n ∧ n ≤ 122) ∨
    n ∈ [33, 39, 40, 41, 42, 45, 46, 95, 126])

/-- The function `encodeURIComponent`: every other character becomes the escapes of
its UTF-8 bytes. -/
def modelEncodeURIComponent (s : JSString) : JSString :=
  s.flatMap (fun c =>
    if isUnreserved c then [c]
    else (utf8Bytes c).flatMap (fun b => [Char.ofNat 37, hexDigit (b / 16), hexDigit (b % 16)]))

/-- Where a percent-decoder stands inside an escape: outside, after `%`, or after `%`
and one hexadecimal digit. -/
inductive EscapeState
  | normal
  | percent
  | percentHex (digit : Char) (value : Nat)

/-- State of a percent-decoder: the decoded characters (most recent first), the escape
under way, the UTF-8 sequence under way (continuation bytes still expected, bits read
so far, least code point allowed), and whether an error has occurred. -/
structure DecodeState where
  out : List Char
  escape : EscapeState
  pending : Option (Nat × Nat × Nat)
  failed : Bool

namespace DecodeState

/-- The decoder gives up on the UTF-8 sequence under way, if any: U+FFFD is emitted. -/
def abandon (st : DecodeState) : DecodeState :=
  match st.pending with
  | none => st
  | some _ => { st with out := Char.ofNat 65533 :: st.out, pending := none, failed := true }

/-- A character that does not come from an escape. -/
def pushChar (st : DecodeState) (c : Char) : DecodeState :=
  let st1 := st.abandon
  { st1 with out := c :: st1.out }

/-- A byte that starts a UTF-8 sequence. -/
def startByte (st : DecodeState) (b : Nat) : DecodeState :=
  if b < 128 then { st with out := Char.ofNat b :: st.out }
  else if 194 ≤ b ∧ b ≤ 223 then { st with pending := some (1, b - 192, 128) }
  else if 224 ≤ b ∧ b ≤ 239 then { st with pending := some (2, b - 224, 2048) }
  else if 240 ≤ b ∧ b ≤ 244 then { st with pending := some (3, b - 240, 65536) }
  else { st with out := Char.ofNat 65533 :: st.out, failed := true }

/-- A byte that comes from an escape. -/
def pushByte (st : DecodeState) (b : Nat) : DecodeState :=
  match st.pending with
  | none => st.startByte b
  | some (need, acc, least) =>
      if 128 ≤ b ∧ b ≤ 191 then
        let acc2 := acc * 64 + (b - 128)
        if need = 1 then
          if least ≤ acc2 ∧ acc2 ≤ 1114111 ∧ ¬ (55296 ≤ acc2 ∧ acc2 ≤ 57343) then
            { st with out := Char.ofNat acc2 :: st.out, pending := none }
          else { st with out := Char.ofNat 65533 :: st.out, pending := none, failed := true }
        else { st with pending := some (need - 1, acc2, least) }
      else st.abandon.startByte b

/-- An input character read outside an escape; `plusIsSpace` is the form decoding of a
query string. -/
def normalStep (plusIsSpace : Bool) (st : DecodeState) (c : Char) : DecodeState :=
  if c.toNat = 37 then { st with escape := EscapeState.percent }
  else st.pushChar (if plusIsSpace && decide (c.toNat = 43) then Char.ofNat 32 else c)

/-- One input character.  A `%` that is not followed by two hexadecimal digits is an
error; the characters read so far are kept as they are. -/
def step (plusIsSpace : Bool) (st : DecodeState) (c : Char) : DecodeState :=
  match st.escape with
  | EscapeState.normal => normalStep plusIsSpace st c
  | EscapeState.percent =>
      match hexValue c with
      | some v => { st with escape := EscapeState.percentHex c v }
      | none =>
          normalStep plusIsSpace
            (({ st with escape := EscapeState.normal, failed := true }).pushChar
              (Char.ofNat 37)) c
  | EscapeState.percentHex d v =>
      match hexValue c with
      | some w => ({ st with escape := EscapeState.normal }).pushByte (16 * v + w)
      | none =>
          normalStep plusIsSpace
            ((({ st with escape := EscapeState.normal, failed := true }).pushChar
              (Char.ofNat 37)).pushChar d) c

/-- The end of the input: an unfinished escape or UTF-8 sequence is an error. -/
def finish (st : DecodeState) : DecodeState :=
  match st.escape with
  | EscapeState.normal => st.abandon
  | EscapeState.percent =>
      ({ st with escape := EscapeState.normal, failed := true }).pushChar (Char.ofNat 37)
  | EscapeState.percentHex d _ =>
      (({ st with escape := EscapeState.normal, failed := true }).pushChar
        (Char.ofNat 37)).pushChar d

end DecodeState

/-- Percent-decoding of a whole string. -/
def percentDecode (plusIsSpace : Bool) (s : JSString) : DecodeState :=
  (s.foldl (DecodeState.step plusIsSpace)
    { out := [], escape := EscapeState.normal, pending := none, failed := false }).finish

/-- The function `decodeURIComponent`: it throws (`none`) on a malformed escape or
byte sequence. -/
def modelDecodeURIComponent (s : JSString) : Option JSString :=
  if (percentDecode false s).failed then none else some (percentDecode false s).out.reverse

/-- The decoding `URLSearchParams` applies to a name or value of the query: `+` is a
space, escapes are decoded, malformed parts are kept or replaced, never an error. -/
def formDecode (s : JSString) : JSString :=
  (percentDecode true s).out.reverse

/-- The part of a string before the first occurrence of a separator, and the part
after it when there is one. -/
def splitFirst (sep : Char) : JSString → JSString × Option JSString
  | [] => ([], none)
  | c :: rest =>
      if c = sep then ([], some rest)
      else ((c :: (splitFirst sep rest).1), (splitFirst sep rest).2)

/-- The pieces of a string between the occurrences of a separator. -/
def splitOnChar (sep : Char) : JSString → List JSString
  | [] => [[]]
  | c :: rest =>
      if c = sep then [] :: splitOnChar sep rest
      else
        match splitOnChar sep rest with
        | [] => [[c]]
        | seg :: segs => (c :: seg) :: segs

/-- The method `searchParams.get(name)` on a query string: the decoded value of the
first pair with that name. -/
def searchParamsGet (query name : JSString) : Option JSString :=
  ((splitOnChar (Char.ofNat 38) query).filter (fun pair => decide (pair ≠ []))).findSome?
    (fun pair =>
      if formDecode (splitFirst (Char.ofNat 61) pair).1 = name then
        some (formDecode ((splitFirst (Char.ofNat 61) pair).2.getD []))
      else none)

/-- The constructor `new URL(input, origin)` on a reference without a scheme, which is
what `stripOrigin` leaves of a source of the page: surrounding control characters and
spaces are stripped, tabs and newlines removed, the fragment is cut at the first `#`
and the query at the first `?`, and the path is made absolute.  The removal of dot
segments and the escaping of path characters are left out: they do not change whether
the path ends with `thumbnail`.  A reference the constructor rejects (one that starts
with `//` and names an invalid port) is parsed all the same; no source evaluated below
is of that form. -/
def modelParseUrl (input : JSString) : Option UrlParts :=
  let stripped :=
    ((input.dropWhile (fun c => decide (c.toNat ≤ 32))).reverse.dropWhile
      (fun c => decide (c.toNat ≤ 32))).reverse
  let cleaned := stripped.filter (fun c => decide (c.toNat ∉ [9, 10, 13]))
  let beforeFragment := (splitFirst (Char.ofNat 35) cleaned).1
  let path := (splitFirst (Char.ofNat 63) beforeFragment).1
  let query := ((splitFirst (Char.ofNat 63) beforeFragment).2).getD []
  some { pathname := if "/".toList.isPrefixOf path then path else "/".toList ++ path
         type := searchParamsGet query "type".toList
         file := searchParamsGet query "file".toList }

/-- The model browser of a page served from `http://127.0.0.1:8000`. -/
def modelBrowser : Browser :=
  { origin := "http://127.0.0.1:8000".toList
    parseUrl := modelParseUrl
    decodeURIComponent := modelDecodeURIComponent
    encodeURIComponent := modelEncodeURIComponent }

/-! Lemmas on the registry operations -/

theorem getProp_of_lookup {r : Registry} {k : String} {e : Entry}
    (h : r.lookup k = some e) : getProp r k = some e := by
  simp [getProp, h]

theorem getProp_isSome_of_mem {r : Registry} {k : String} (h : k ∈ r) :
    (getProp r k).isSome = true := by
  have h1 : (r.lookup k).isSome = true := AList.lookup_isSome.mpr h
  cases hl : r.lookup k with
  | none => simp [hl] at h1
  | some e => simp [getProp, hl]

theorem lookup_setProp_ne (r : Registry) {k k2 : String} (v : Entry) (h : k2 ≠ k) :
    (setProp r k v).lookup k2 = r.lookup k2 := by
  unfold setProp
  split_ifs <;> simp [AList.lookup_insert_ne h]

theorem mem_setProp_of_mem (r : Registry) (k : String) (v : Entry) {k2 : String}
    (h : k2 ∈ r) : k2 ∈ setProp r k v := by
  unfold setProp
  split_ifs <;> simp [AList.mem_insert, h]

theorem applyPresetToSettings_presets (n : String) (s : Settings) :
    (applyPresetToSettings n s).presets = s.presets := by
  unfold applyPresetToSettings
  split <;> rfl

theorem applyPresetToSettings_activePreset (n : String) (s : Settings) :
    (applyPresetToSettings n s).activePreset = s.activePreset := by
  unfold applyPresetToSettings
  split <;> rfl

theorem delete_cases (name : JSName) (s : Settings) :
    presets.delete name s = (false, s) ∨
    (name ≠ JSName.str "Default" ∧
     (presets.delete name s).2.presets = s.presets.erase name.toKey ∧
     (presets.delete name s).2.activePreset =
       if name = JSName.str s.activePreset then "Default" else s.activePreset) := by
  unfold presets.delete
  by_cases h1 : name = JSName.str "Default"
  · left; rw [if_pos h1]
  · by_cases h2 : (getProp s.presets name.toKey).isNone = true
    · left; rw [if_neg h1, if_pos h2]
    · by_cases h3 : keyCount s.presets ≤ 1
      · left; rw [if_neg h1, if_neg h2, if_pos h3]
      · right
        rw [if_neg h1, if_neg h2, if_neg h3]
        refine ⟨h1, ?_, ?_⟩
        · by_cases ha : name = JSName.str s.activePreset
          · simp [ha, deleteProp, applyPresetToSettings_presets]
          · simp [ha, deleteProp]
        · by_cases ha : name = JSName.str s.activePreset
          · simp [ha, applyPresetToSettings_activePreset]
          · simp [ha]

theorem create_cases (name : JSName) (o : Option Snapshot) (s : Settings) :
    presets.create name o s = (false, s) ∨
    presets.create name o s =
      (true, { s with
        presets := setProp s.presets name.toKey (Entry.snapshot (o.getD [])) }) := by
  unfold presets.create
  split_ifs
  · left; rfl
  · right; rfl

theorem update_cases (name : JSName) (o : Option Snapshot) (s : Settings) :
    presets.update name o s = (false, s) ∨
    ∃ v, presets.update name o s =
      (true, { s with presets := setProp s.presets name.toKey v }) := by
  unfold presets.update
  split
  · left; rfl
  · right; exact ⟨_, rfl⟩

theorem importPreset_cases (p : Option Payload) (s : Settings) :
    presets.importPreset p s = (false, s) ∨
    ∃ k v, presets.importPreset p s = (true, { s with presets := setProp s.presets k v }) := by
  unfold presets.importPreset
  split
  · left; rfl
  · split_ifs
    · left; rfl
    · split
      · left; rfl
      · right; exact ⟨_, _, rfl⟩

theorem keys_ne_nil_of_mem {r : Registry} {k : String} (h : k ∈ r) : r.keys ≠ [] := by
  intro hnil
  have hk : k ∈ r.keys := AList.mem_keys.mp h
  rw [hnil] at hk
  exact List.not_mem_nil k hk

theorem presetInvariant_setProp {s : Settings} (k : String) (v : Entry)
    (h : PresetInvariant s) :
    PresetInvariant { s with presets := setProp s.presets k v } :=
  ⟨mem_setProp_of_mem s.presets k v h.1, mem_setProp_of_mem s.presets k v h.2⟩

/-! Deleting presets -/

/-- C1: `presets.delete('Default')` returns false in every settings state, and
`presets.delete(name)` returns false for every name when the registry has exactly one
entry; in both cases the settings state (registry and activePreset included) is
unchanged. -/
theorem delete_default_or_last_rejected (s : Settings) (name : JSName) :
    presets.delete (JSName.str "Default") s = (false, s) ∧
    (keyCount s.presets = 1 → presets.delete name s = (false, s)) := by
  refine ⟨by simp [presets.delete], fun h => ?_⟩
  have h3 : keyCount s.presets ≤ 1 := by omega
  unfold presets.delete
  by_cases h1 : name = JSName.str "Default"
  · rw [if_pos h1]
  · by_cases h2 : (getProp s.presets name.toKey).isNone = true
    · rw [if_neg h1, if_pos h2]
    · rw [if_neg h1, if_neg h2, if_pos h3]

theorem delete_default_or_last_rejected_witness :
    keyCount onlyDefault.presets = 1 ∧
    presets.delete (JSName.str "Dusk - by Rivelle") onlyDefault = (false, onlyDefault) :=
  ⟨by decide,
   (delete_default_or_last_rejected onlyDefault (JSName.str "Dusk - by Rivelle")).2
     (by decide)⟩

/-- C2, evaluated at a failing input: `constructor` is not a key of the registry
`{Default, Dusk - by Rivelle}`, yet `presets.delete('constructor')` returns true,
because `settings.presets['constructor']` reads the truthy property inherited from
`Object.prototype`. -/
theorem delete_inherited_name_returns_true :
    "constructor" ∉ duskActive.presets ∧
    presets.delete (JSName.str "constructor") duskActive = (true, duskActive) :=
  ⟨by decide, by rfl⟩

/-- C3: for a name other than `Default` that is a key of a registry with at least two
entries, `presets.delete(name)` returns true, the new registry is the old one with
exactly the key `name` removed (every other entry unchanged), and activePreset becomes
`Default` if it was `name` and is unchanged otherwise. -/
theorem delete_existing_removes_key (s : Settings) (name : String)
    (hne : name ≠ "Default") (hmem : name ∈ s.presets) (hcount : 2 ≤ keyCount s.presets) :
    (presets.delete (JSName.str name) s).1 = true ∧
    (presets.delete (JSName.str name) s).2.presets = s.presets.erase name ∧
    (presets.delete (JSName.str name) s).2.presets.lookup name = none ∧
    (∀ k, k ≠ name →
      (presets.delete (JSName.str name) s).2.presets.lookup k = s.presets.lookup k) ∧
    (presets.delete (JSName.str name) s).2.activePreset =
      if s.activePreset = name then "Default" else s.activePreset := by
  have h1 : ¬ (JSName.str name = JSName.str "Default") := fun h => hne (JSName.str.inj h)
  have h2 : ¬ ((getProp s.presets (JSName.str name).toKey).isNone = true) := by
    have := getProp_isSome_of_mem hmem
    simp only [JSName.toKey]
    cases hg : getProp s.presets name <;> simp_all
  have h3 : ¬ (keyCount s.presets ≤ 1) := by omega
  have hdel : presets.delete (JSName.str name) s =
      (true, { (if JSName.str name = JSName.str s.activePreset then
                  applyPresetToSettings "Default" { s with activePreset := "Default" }
                else s) with
               presets := deleteProp (if JSName.str name = JSName.str s.activePreset then
                  applyPresetToSettings "Default" { s with activePreset := "Default" }
                else s).presets name }) := by
    unfold presets.delete
    rw [if_neg h1, if_neg h2, if_neg h3]
    rfl
  have hp : (presets.delete (JSName.str name) s).2.presets = s.presets.erase name := by
    rw [hdel]
    by_cases ha : JSName.str name = JSName.str s.activePreset
    · simp [ha, deleteProp, applyPresetToSettings_presets]
    · simp [ha, deleteProp]
  refine ⟨by rw [hdel], hp, ?_, ?_, ?_⟩
  · rw [hp]; exact AList.lookup_erase name s.presets
  · intro k hk
    rw [hp]; exact AList.lookup_erase_ne hk
  · rw [hdel]
    by_cases ha : s.activePreset = name
    · have : JSName.str name = JSName.str s.activePreset := by rw [ha]
      simp [this, ha, applyPresetToSettings_activePreset]
    · have : ¬ (JSName.str name = JSName.str s.activePreset) :=
        fun h => ha (JSName.str.inj h).symm
      simp [this, ha]

theorem delete_existing_removes_key_witness :
    (presets.delete (JSName.str "Dusk - by Rivelle") duskActive).1 = true ∧
    (presets.delete (JSName.str "Dusk - by Rivelle") duskActive).2.presets =
      duskActive.presets.erase "Dusk - by Rivelle" ∧
    (presets.delete (JSName.str "Dusk - by Rivelle") duskActive).2.presets.lookup
      "Dusk - by Rivelle" = none ∧
    (presets.delete (JSName.str "Dusk - by Rivelle") duskActive).2.presets.lookup
      "Default" = duskActive.presets.lookup "Default" ∧
    (presets.delete (JSName.str "Dusk - by Rivelle") duskActive).2.activePreset =
      "Default" :=
  have h := delete_existing_removes_key duskActive "Dusk - by Rivelle" (by decide)
    (by decide) (by decide)
  ⟨h.1, h.2.1, h.2.2.1, h.2.2.2.1 "Default" (by decide), h.2.2.2.2⟩

/-! The registry invariant -/

/-- C4, evaluated at a failing input: the invariant holds in the state
`{Default, Dusk - by Rivelle}` with `Dusk - by Rivelle` active, and
`presets.delete(['Default'])`, whose argument is an array and so passes the test
`name === 'Default'`, removes the key `Default`: the invariant does not hold
afterwards. -/
theorem preset_invariant_broken_by_array_name :
    PresetInvariant duskActive ∧
    ¬ PresetInvariant
      ((Call.delete (JSName.nonString true "Default")).run duskActive).2 :=
  ⟨⟨by decide, by decide⟩, fun h => absurd h.1 (by decide)⟩

/-- Where the invariant is kept: if `Default` and activePreset are keys of the registry,
they still are after any call of `presets.create`, `presets.update` or `presets.import`
with any arguments and after any call of `presets.delete` whose name is a string; in
particular the registry is not empty afterwards. -/
theorem preset_invariant_preserved (c : Call) (s : Settings)
    (hc : c.deleteNameIsString = true) (hinv : PresetInvariant s) :
    PresetInvariant (c.run s).2 ∧ (c.run s).2.presets.keys ≠ [] := by
  have key : PresetInvariant (c.run s).2 := by
    cases c with
    | create name o =>
        rcases create_cases name o s with h | h
        · simp only [Call.run, h]; exact hinv
        · simp only [Call.run, h]; exact presetInvariant_setProp _ _ hinv
    | update name o =>
        rcases update_cases name o s with h | ⟨v, h⟩
        · simp only [Call.run, h]; exact hinv
        · simp only [Call.run, h]; exact presetInvariant_setProp _ _ hinv
    | importPreset p =>
        rcases importPreset_cases p s with h | ⟨k, v, h⟩
        · simp only [Call.run, h]; exact hinv
        · simp only [Call.run, h]; exact presetInvariant_setProp _ _ hinv
    | delete name =>
        cases name with
        | nonString t k => simp [Call.deleteNameIsString, JSName.isString] at hc
        | str n =>
            rcases delete_cases (JSName.str n) s with h | ⟨hne, hp, ha⟩
            · simp only [Call.run, h]; exact hinv
            · have hn : n ≠ "Default" := fun e => hne (by rw [e])
              simp only [JSName.toKey] at hp
              refine ⟨?_, ?_⟩
              · show "Default" ∈ (presets.delete (JSName.str n) s).2.presets
                rw [hp, AList.mem_erase]
                exact ⟨fun e => hn e.symm, hinv.1⟩
              · show (presets.delete (JSName.str n) s).2.activePreset ∈
                  (presets.delete (JSName.str n) s).2.presets
                rw [hp, ha, AList.mem_erase]
                by_cases hact : JSName.str n = JSName.str s.activePreset
                · rw [if_pos hact]
                  exact ⟨fun e => hn e.symm, hinv.1⟩
                · rw [if_neg hact]
                  exact ⟨fun e => hact (by rw [e]), hinv.2⟩
  exact ⟨key, keys_ne_nil_of_mem key.1⟩

theorem preset_invariant_preserved_witness :
    PresetInvariant
      ((Call.delete (JSName.str "Dusk - by Rivelle")).run duskActive).2 ∧
    ((Call.delete (JSName.str "Dusk - by Rivelle")).run duskActive).2.presets.keys ≠ [] :=
  preset_invariant_preserved (Call.delete (JSName.str "Dusk - by Rivelle")) duskActive
    (by decide) ⟨by decide, by decide⟩

/-! Creating presets -/

theorem create_valid_name (name : String) (o : Option Snapshot) (s : Settings)
    (hne : name ≠ "") :
    presets.create (JSName.str name) o s =
      (true, { s with
        presets := setProp s.presets name (Entry.snapshot (o.getD [])) }) := by
  simp [presets.create, JSName.truthy, JSName.isString, JSName.toKey, hne]

theorem lookup_setProp_self (r : Registry) (k : String) (v : Entry)
    (h : k ∈ r ∨ k ≠ "__proto__") : (setProp r k v).lookup k = some v := by
  unfold setProp
  by_cases hm : k ∈ r
  · rw [if_pos hm]; exact AList.lookup_insert r
  · rw [if_neg hm]
    have hp : k ≠ "__proto__" := h.resolve_left hm
    rw [if_neg hp]; exact AList.lookup_insert r

/-- C5, counterexample: `Default` is a key of the registry, and
`presets.create('Default', {fontColor: '#fff'})` returns true and replaces the entry
that was stored under `Default`. -/
theorem create_existing_name_overwrites :
    "Default" ∈ onlyDefault.presets ∧
    onlyDefault.presets.lookup "Default" = some (Entry.snapshot []) ∧
    (presets.create (JSName.str "Default")
      (some [("fontColor", SettingValue.str "#fff")]) onlyDefault).1 = true ∧
    (presets.create (JSName.str "Default")
      (some [("fontColor", SettingValue.str "#fff")]) onlyDefault).2.presets.lookup
        "Default" = some (Entry.snapshot [("fontColor", SettingValue.str "#fff")]) :=
  ⟨by decide, by decide, by decide, by decide⟩

/-- C5, amended: for a non-empty string name that is already a key of the registry,
`presets.create(name, snapshot)` returns true and replaces the entry for `name` by the
snapshot (by the empty object when the snapshot is omitted or falsy); every other
entry and activePreset are unchanged. -/
theorem create_existing_name_replaces (s : Settings) (name : String)
    (o : Option Snapshot) (k : String)
    (hne : name ≠ "") (hmem : name ∈ s.presets) (hk : k ≠ name) :
    (presets.create (JSName.str name) o s).1 = true ∧
    (presets.create (JSName.str name) o s).2.presets.lookup name =
      some (Entry.snapshot (o.getD [])) ∧
    (presets.create (JSName.str name) o s).2.presets.lookup k = s.presets.lookup k ∧
    (presets.create (JSName.str name) o s).2.activePreset = s.activePreset := by
  rw [create_valid_name name o s hne]
  exact ⟨rfl, lookup_setProp_self _ _ _ (Or.inl hmem), lookup_setProp_ne _ _ hk, rfl⟩

theorem create_existing_name_replaces_witness :
    (presets.create (JSName.str "Dusk - by Rivelle") none duskActive).1 = true ∧
    (presets.create (JSName.str "Dusk - by Rivelle") none duskActive).2.presets.lookup
      "Dusk - by Rivelle" = some (Entry.snapshot ((none : Option Snapshot).getD [])) ∧
    (presets.create (JSName.str "Dusk - by Rivelle") none duskActive).2.presets.lookup
      "Default" = duskActive.presets.lookup "Default" ∧
    (presets.create (JSName.str "Dusk - by Rivelle") none duskActive).2.activePreset =
      duskActive.activePreset :=
  create_existing_name_replaces duskActive "Dusk - by Rivelle" none "Default"
    (by decide) (by decide) (by decide)

/-- C6: for a name that is the empty string or is not a string,
`presets.create(name, snapshot)` returns false and leaves the settings state (registry
and activePreset included) unchanged. -/
theorem create_invalid_name_rejected (name : JSName) (o : Option Snapshot) (s : Settings)
    (h : name = JSName.str "" ∨ name.isString = false) :
    presets.create name o s = (false, s) := by
  rcases h with h | h
  · subst h
    simp [presets.create, JSName.truthy]
  · simp [presets.create, h]

theorem create_invalid_name_rejected_witness :
    presets.create (JSName.nonString true "Dusk")
      (some [("fontColor", SettingValue.str "#fff")]) onlyDefault = (false, onlyDefault) :=
  create_invalid_name_rejected (JSName.nonString true "Dusk")
    (some [("fontColor", SettingValue.str "#fff")]) onlyDefault (Or.inr (by decide))

/-- C7, counterexample: `presets.create('Dusk', {fontColor: '#fff'})` on the state whose
only preset is the active `Default` returns true and leaves activePreset at `Default`;
and `presets.create('__proto__', {fontColor: '#fff'})` returns true without giving the
registry a key `__proto__`. -/
theorem create_new_name_keeps_activePreset :
    ("Dusk" ∉ onlyDefault.presets ∧
     (presets.create (JSName.str "Dusk")
       (some [("fontColor", SettingValue.str "#fff")]) onlyDefault).1 = true ∧
     (presets.create (JSName.str "Dusk")
       (some [("fontColor", SettingValue.str "#fff")]) onlyDefault).2.activePreset
         = "Default") ∧
    ("__proto__" ∉ onlyDefault.presets ∧
     (presets.create (JSName.str "__proto__")
       (some [("fontColor", SettingValue.str "#fff")]) onlyDefault).1 = true ∧
     (presets.create (JSName.str "__proto__")
       (some [("fontColor", SettingValue.str "#fff")]) onlyDefault).2.presets.lookup
         "__proto__" = none) :=
  ⟨⟨by decide, by decide, by decide⟩, ⟨by decide, by decide, by decide⟩⟩

/-- C7, amended: for a non-empty string name other than `__proto__` that is not yet a
key of the registry, `presets.create(name, snapshot)` returns true and afterwards the
registry maps `name` to the snapshot (to the empty object when the snapshot is omitted
or falsy), every other registry entry is unchanged, the registry has one key more, and
activePreset is unchanged. -/
theorem create_new_name_inserts (s : Settings) (name : String) (o : Option Snapshot)
    (k : String)
    (hne : name ≠ "") (hproto : name ≠ "__proto__") (hnew : name ∉ s.presets)
    (hk : k ≠ name) :
    (presets.create (JSName.str name) o s).1 = true ∧
    (presets.create (JSName.str name) o s).2.presets.lookup name =
      some (Entry.snapshot (o.getD [])) ∧
    (presets.create (JSName.str name) o s).2.presets.lookup k = s.presets.lookup k ∧
    keyCount (presets.create (JSName.str name) o s).2.presets = keyCount s.presets + 1 ∧
    (presets.create (JSName.str name) o s).2.activePreset = s.activePreset := by
  rw [create_valid_name name o s hne]
  refine ⟨rfl, lookup_setProp_self _ _ _ (Or.inr hproto), lookup_setProp_ne _ _ hk,
    ?_, rfl⟩
  have hk2 : name ∉ s.presets.keys := fun h => hnew (AList.mem_keys.mpr h)
  show keyCount (setProp s.presets name _) = keyCount s.presets + 1
  unfold setProp keyCount
  rw [if_neg hnew, if_neg hproto, AList.keys_insert, List.erase_of_not_mem hk2]
  rfl

theorem create_new_name_inserts_witness :
    "Dusk" ∉ onlyDefault.presets ∧
    (presets.create (JSName.str "Dusk")
      (some [("fontColor", SettingValue.str "#fff")]) onlyDefault).1 = true ∧
    (presets.create (JSName.str "Dusk")
      (some [("fontColor", SettingValue.str "#fff")]) onlyDefault).2.presets.lookup
        "Dusk" = some (Entry.snapshot
          ((some [("fontColor", SettingValue.str "#fff")] : Option Snapshot).getD [])) ∧
    (presets.create (JSName.str "Dusk")
      (some [("fontColor", SettingValue.str "#fff")]) onlyDefault).2.presets.lookup
        "Default" = onlyDefault.presets.lookup "Default" ∧
    keyCount (presets.create (JSName.str "Dusk")
      (some [("fontColor", SettingValue.str "#fff")]) onlyDefault).2.presets =
        keyCount onlyDefault.presets + 1 ∧
    (presets.create (JSName.str "Dusk")
      (some [("fontColor", SettingValue.str "#fff")]) onlyDefault).2.activePreset =
        onlyDefault.activePreset :=
  ⟨by decide,
   create_new_name_inserts onlyDefault "Dusk"
     (some [("fontColor", SettingValue.str "#fff")]) "Default"
     (by decide) (by decide) (by decide) (by decide)⟩

/-! Updating presets -/

/-- C8, evaluated at a failing input: `constructor` is not a key of the registry
`{Default}`, yet `presets.update('constructor', {fontColor: '#fff'})` returns true and
adds the entry `constructor`, because `settings.presets['constructor']` reads the
truthy property inherited from `Object.prototype`. -/
theorem update_inherited_name_adds_entry :
    "constructor" ∉ onlyDefault.presets ∧
    (presets.update (JSName.str "constructor")
      (some [("fontColor", SettingValue.str "#fff")]) onlyDefault).1 = true ∧
    (presets.update (JSName.str "constructor")
      (some [("fontColor", SettingValue.str "#fff")]) onlyDefault).2.presets.lookup
        "constructor" = some (Entry.snapshot [("fontColor", SettingValue.str "#fff")]) ∧
    keyCount (presets.update (JSName.str "constructor")
      (some [("fontColor", SettingValue.str "#fff")]) onlyDefault).2.presets = 2 :=
  ⟨by decide, by decide, by decide, by decide⟩

/-- C9: for every name and snapshot (given or omitted), `presets.update(name, snapshot)`
leaves activePreset unchanged and leaves unchanged every registry entry stored under a
key other than the one `name` denotes. -/
theorem update_frame (name : JSName) (o : Option Snapshot) (s : Settings) (k : String)
    (hk : k ≠ name.toKey) :
    (presets.update name o s).2.activePreset = s.activePreset ∧
    (presets.update name o s).2.presets.lookup k = s.presets.lookup k := by
  rcases update_cases name o s with h | ⟨v, h⟩
  · rw [h]; exact ⟨rfl, rfl⟩
  · rw [h]; exact ⟨rfl, lookup_setProp_ne _ _ hk⟩

theorem update_frame_witness :
    (presets.update (JSName.str "Default")
      (some [("fontColor", SettingValue.str "#abc")]) duskActive).2.activePreset =
        duskActive.activePreset ∧
    (presets.update (JSName.str "Default")
      (some [("fontColor", SettingValue.str "#abc")]) duskActive).2.presets.lookup
        "Dusk - by Rivelle" = duskActive.presets.lookup "Dusk - by Rivelle" :=
  update_frame (JSName.str "Default") (some [("fontColor", SettingValue.str "#abc")])
    duskActive "Dusk - by Rivelle" (by decide)

/-! Importing presets -/

/-- C10: a payload that is itself falsy, or whose `moonlitEchoesPreset`, `presetName` or
`settings` field is missing or falsy, is rejected by `presets.import`: the call returns
false and leaves the settings state (registry and activePreset included) unchanged. -/
theorem import_invalid_payload_rejected (p : Payload) (s : Settings)
    (h : p.moonlitEchoesPreset = false ∨ p.presetName.truthy = false ∨
      p.settings = none) :
    presets.importPreset (some p) s = (false, s) ∧
    presets.importPreset none s = (false, s) := by
  refine ⟨?_, rfl⟩
  rcases h with h | h | h
  · simp [presets.importPreset, h]
  · simp [presets.importPreset, h]
  · unfold presets.importPreset
    simp only [h]
    split_ifs <;> rfl

theorem import_invalid_payload_rejected_witness :
    presets.importPreset
      (some { moonlitEchoesPreset := true
              presetVersion := some "3.0.0"
              presetName := JSName.str "MyPreset"
              settings := none }) onlyDefault = (false, onlyDefault) ∧
    presets.importPreset none onlyDefault = (false, onlyDefault) :=
  import_invalid_payload_rejected
    { moonlitEchoesPreset := true
      presetVersion := some "3.0.0"
      presetName := JSName.str "MyPreset"
      settings := none } onlyDefault (Or.inr (Or.inr rfl))

theorem importPreset_valid (p : Payload) (e : Entry) (s : Settings)
    (hm : p.moonlitEchoesPreset = true) (hn : p.presetName.truthy = true)
    (hs : p.settings = some e) :
    presets.importPreset (some p) s =
      (true, { s with presets := setProp s.presets p.presetName.toKey e }) := by
  simp [presets.importPreset, hm, hn, hs]

theorem importPreset_upsert (p : Payload) (e : Entry) (s : Settings) (k : String)
    (hm : p.moonlitEchoesPreset = true) (hn : p.presetName.truthy = true)
    (hs : p.settings = some e)
    (hkey : p.presetName.toKey ∈ s.presets ∨ p.presetName.toKey ≠ "__proto__")
    (hk : k ≠ p.presetName.toKey) :
    (presets.importPreset (some p) s).1 = true ∧
    (presets.importPreset (some p) s).2.presets.lookup p.presetName.toKey = some e ∧
    (presets.importPreset (some p) s).2.presets.lookup k = s.presets.lookup k := by
  rw [importPreset_valid p e s hm hn hs]
  exact ⟨rfl, lookup_setProp_self _ _ _ hkey, lookup_setProp_ne _ _ hk⟩

/-- C11, evaluated at a failing input: importing the valid payload
`{moonlitEchoesPreset: true, presetVersion: "3.0.0", presetName: "__proto__",
settings: {fontColor: "#fff"}}` into the registry `{Default}` returns true, yet
afterwards the registry has no key `__proto__` and still has exactly one key: the
assignment `settings.presets['__proto__'] = ...` goes to the accessor inherited from
`Object.prototype`. -/
theorem import_proto_name_adds_no_key :
    (presets.importPreset (some protoPayload) onlyDefault).1 = true ∧
    (presets.importPreset (some protoPayload) onlyDefault).2.presets.lookup
      "__proto__" = none ∧
    "__proto__" ∉ (presets.importPreset (some protoPayload) onlyDefault).2.presets ∧
    keyCount (presets.importPreset (some protoPayload) onlyDefault).2.presets = 1 :=
  ⟨by decide, by decide, by decide, by decide⟩

/-- C12, counterexample: importing the valid payload of the spec scenario (preset
`MyPreset`) into the state whose only preset is the active `Default` succeeds, adds
the key `MyPreset`, and leaves activePreset at `Default`. -/
theorem import_leaves_activePreset_at_default :
    (presets.importPreset (some myPresetPayload) onlyDefault).1 = true ∧
    "MyPreset" ∈ (presets.importPreset (some myPresetPayload) onlyDefault).2.presets ∧
    (presets.importPreset (some myPresetPayload) onlyDefault).2.activePreset = "Default" ∧
    myPresetPayload.presetName ≠
      JSName.str (presets.importPreset (some myPresetPayload) onlyDefault).2.activePreset :=
  ⟨by decide, by decide, by decide, by decide⟩

/-- C12, amended: for every payload, valid or not, `presets.import(payload)` leaves
activePreset as it was; after a successful import activePreset equals
`payload.presetName` only if it did before. -/
theorem import_keeps_activePreset (p : Option Payload) (s : Settings) :
    (presets.importPreset p s).2.activePreset = s.activePreset := by
  rcases importPreset_cases p s with h | ⟨k, v, h⟩ <;> rw [h]

/-! Exporting presets -/

theorem exportPreset_of_key (s : Settings) (n : String) (e : Entry)
    (h : s.presets.lookup n = some e) :
    presets.exportPreset (JSName.str n) s =
      some { moonlitEchoesPreset := true
             presetVersion := some "3.0.0"
             presetName := JSName.str n
             settings := some e } := by
  simp [presets.exportPreset, JSName.toKey, getProp_of_lookup h, THEME_VERSION]

theorem exportPreset_eq_none_iff (name : JSName) (s : Settings) :
    presets.exportPreset name s = none ↔ getProp s.presets name.toKey = none := by
  unfold presets.exportPreset
  cases getProp s.presets name.toKey <;> simp

/-- C13, evaluated at a failing input: `constructor` is not a key of the registry
`{Default}`, yet `presets.export('constructor')` does not return null: it returns a
payload whose `settings` field is the value that `Object.prototype` holds under
`constructor`. -/
theorem export_inherited_name_not_null :
    "constructor" ∉ onlyDefault.presets ∧
    presets.exportPreset (JSName.str "constructor") onlyDefault =
      some { moonlitEchoesPreset := true
             presetVersion := some "3.0.0"
             presetName := JSName.str "constructor"
             settings := some (Entry.inherited "constructor") } :=
  ⟨by decide, by rfl⟩

/-- C14: for every name `n` that is a key of the registry, `presets.export(n)` returns
a payload (not null) that carries the name `n` and the entry `n` has, and importing
that payload yields a registry whose entry for `n` is that entry, every other entry
being unchanged.  The entry comes from the payload: unless `n` is the empty string,
which `presets.import` rejects, the import returns true, and imported into any other
state `t` (one that has the key `n`, or any state when `n` is not `__proto__`) the
payload makes the entry of `n` in `t` the entry `n` had in the exporting state. -/
theorem import_export_round_trip (s t : Settings) (n k : String) (hmem : n ∈ s.presets) :
    ∃ e, s.presets.lookup n = some e ∧
      presets.exportPreset (JSName.str n) s =
        some { moonlitEchoesPreset := true
               presetVersion := some THEME_VERSION
               presetName := JSName.str n
               settings := some e } ∧
      (presets.importPreset (presets.exportPreset (JSName.str n) s) s).2.presets.lookup n =
        some e ∧
      (presets.importPreset (presets.exportPreset (JSName.str n) s) s).2.presets.lookup k =
        s.presets.lookup k ∧
      (n ≠ "" →
        (presets.importPreset (presets.exportPreset (JSName.str n) s) s).1 = true) ∧
      (n ≠ "" → (n ∈ t.presets ∨ n ≠ "__proto__") →
        (presets.importPreset (presets.exportPreset (JSName.str n) s) t).1 = true ∧
        (presets.importPreset (presets.exportPreset (JSName.str n) s) t).2.presets.lookup n =
          some e ∧
        (k ≠ n →
          (presets.importPreset (presets.exportPreset (JSName.str n) s)
            t).2.presets.lookup k = t.presets.lookup k)) := by
  have h1 : (s.presets.lookup n).isSome = true := AList.lookup_isSome.mpr hmem
  cases hl : s.presets.lookup n with
  | none => simp [hl] at h1
  | some e =>
    have hexp : presets.exportPreset (JSName.str n) s =
        some { moonlitEchoesPreset := true
               presetVersion := some THEME_VERSION
               presetName := JSName.str n
               settings := some e } := by
      simp [presets.exportPreset, JSName.toKey, getProp_of_lookup hl]
    have hvalid : ∀ u : Settings, n ≠ "" →
        presets.importPreset
          (some { moonlitEchoesPreset := true
                  presetVersion := some THEME_VERSION
                  presetName := JSName.str n
                  settings := some e }) u =
          (true, { u with presets := setProp u.presets n e }) := by
      intro u hn
      have := importPreset_valid
        { moonlitEchoesPreset := true
          presetVersion := some THEME_VERSION
          presetName := JSName.str n
          settings := some e } e u rfl (by simp [JSName.truthy, hn]) rfl
      simpa [JSName.toKey] using this
    have key : ∀ k2, (presets.importPreset
        (some { moonlitEchoesPreset := true
                presetVersion := some THEME_VERSION
                presetName := JSName.str n
                settings := some e }) s).2.presets.lookup k2 = s.presets.lookup k2 := by
      intro k2
      by_cases hn : n = ""
      · simp [presets.importPreset, JSName.truthy, hn]
      · rw [hvalid s hn]
        by_cases hk : k2 = n
        · rw [hk, lookup_setProp_self _ _ _ (Or.inl hmem), hl]
        · exact lookup_setProp_ne _ _ hk
    refine ⟨e, rfl, hexp, ?_, ?_, ?_, ?_⟩
    · rw [hexp, key n, hl]
    · rw [hexp, key k]
    · intro hn
      rw [hexp, hvalid s hn]
    · intro hn hkey
      rw [hexp, hvalid t hn]
      exact ⟨rfl, lookup_setProp_self _ _ _ hkey, fun hk => lookup_setProp_ne _ _ hk⟩

theorem import_export_round_trip_witness :
    ∃ e, duskActive.presets.lookup "Dusk - by Rivelle" = some e ∧
      presets.exportPreset (JSName.str "Dusk - by Rivelle") duskActive =
        some { moonlitEchoesPreset := true
               presetVersion := some THEME_VERSION
               presetName := JSName.str "Dusk - by Rivelle"
               settings := some e } ∧
      (presets.importPreset
        (presets.exportPreset (JSName.str "Dusk - by Rivelle") duskActive)
        duskActive).2.presets.lookup "Dusk - by Rivelle" = some e ∧
      (presets.importPreset
        (presets.exportPreset (JSName.str "Dusk - by Rivelle") duskActive)
        duskActive).2.presets.lookup "Default" = duskActive.presets.lookup "Default" ∧
      ("Dusk - by Rivelle" ≠ "" →
        (presets.importPreset
          (presets.exportPreset (JSName.str "Dusk - by Rivelle") duskActive)
          duskActive).1 = true) ∧
      ("Dusk - by Rivelle" ≠ "" →
        ("Dusk - by Rivelle" ∈ onlyDefault.presets ∨ "Dusk - by Rivelle" ≠ "__proto__") →
        (presets.importPreset
          (presets.exportPreset (JSName.str "Dusk - by Rivelle") duskActive)
          onlyDefault).1 = true ∧
        (presets.importPreset
          (presets.exportPreset (JSName.str "Dusk - by Rivelle") duskActive)
          onlyDefault).2.presets.lookup "Dusk - by Rivelle" = some e ∧
        ("Default" ≠ "Dusk - by Rivelle" →
          (presets.importPreset
            (presets.exportPreset (JSName.str "Dusk - by Rivelle") duskActive)
            onlyDefault).2.presets.lookup "Default" =
              onlyDefault.presets.lookup "Default")) :=
  import_export_round_trip duskActive onlyDefault "Dusk - by Rivelle" "Default"
    (by decide)

/-! The host theme selector -/

theorem findOption_none {presetName : JSName} :
    ∀ (opts : List ThemeOption) (i : Nat),
      findOption presetName opts i = none ↔
        ∀ o ∈ opts, JSName.str o.value ≠ presetName
  | [], i => by simp [findOption]
  | o :: rest, i => by
      unfold findOption
      by_cases h : JSName.str o.value = presetName
      · simp [h]
      · rw [if_neg h, findOption_none rest (i + 1)]
        simp [h]

theorem findOption_some {presetName : JSName} :
    ∀ (opts : List ThemeOption) (i j : Nat),
      findOption presetName opts i = some j →
        ∃ m o, j = i + m ∧ opts.get? m = some o ∧ JSName.str o.value = presetName ∧
          ∀ m2 o2, m2 < m → opts.get? m2 = some o2 → JSName.str o2.value ≠ presetName
  | [], i, j => by simp [findOption]
  | o :: rest, i, j => by
      unfold findOption
      by_cases h : JSName.str o.value = presetName
      · rw [if_pos h]
        intro hj
        refine ⟨0, o, ?_, rfl, h, ?_⟩
        · simpa using (Option.some.inj hj).symm
        · intro m2 o2 hm2
          omega
      · rw [if_neg h]
        intro hj
        obtain ⟨m, o1, hjm, hget, hval, hfirst⟩ := findOption_some rest (i + 1) j hj
        refine ⟨m + 1, o1, by omega, by simpa using hget, hval, ?_⟩
        intro m2 o2 hm2 hget2
        cases m2 with
        | zero =>
            have : o2 = o := by simpa using hget2.symm
            rw [this]; exact h
        | succ m3 =>
            exact hfirst m3 o2 (by omega) (by simpa using hget2)

/-- C15: when the selector is present, `updateThemeSelector(name)` behaves as
selectOption.  If some option has the value `name`, the selected index becomes the
index of the first such option and exactly one change event is dispatched; if no
option has the value `name`, the document (selection included) is unchanged and no
change event is dispatched. -/
theorem updateThemeSelector_selects_first (dom : Dom) (sel : ThemeSelector)
    (presetName : JSName) (hsel : dom.themes = some sel) :
    ((∃ o ∈ sel.options, JSName.str o.value = presetName) →
      ∃ i o, (updateThemeSelector presetName dom).1.themes =
          some { sel with selectedIndex := some i } ∧
        sel.options.get? i = some o ∧ JSName.str o.value = presetName ∧
        (∀ j o2, j < i → sel.options.get? j = some o2 →
          JSName.str o2.value ≠ presetName) ∧
        (updateThemeSelector presetName dom).2 = 1) ∧
    ((¬ ∃ o ∈ sel.options, JSName.str o.value = presetName) →
      updateThemeSelector presetName dom = (dom, 0)) := by
  constructor
  · intro hex
    cases hf : findOption presetName sel.options 0 with
    | none =>
        obtain ⟨o, ho, hv⟩ := hex
        exact absurd hv ((findOption_none sel.options 0).mp hf o ho)
    | some j =>
        obtain ⟨m, o, hjm, hget, hval, hfirst⟩ := findOption_some sel.options 0 j hf
        have hj : j = m := by omega
        subst hj
        refine ⟨j, o, ?_, hget, hval, hfirst, ?_⟩
        · simp [updateThemeSelector, hsel, hf]
        · simp [updateThemeSelector, hsel, hf]
  · intro hno
    have hf : findOption presetName sel.options 0 = none :=
      (findOption_none sel.options 0).mpr (fun o ho hv => hno ⟨o, ho, hv⟩)
    simp [updateThemeSelector, hsel, hf]

theorem updateThemeSelector_selects_first_witness :
    (∃ i o, (updateThemeSelector (JSName.str "Dusk - by Rivelle") exampleDom).1.themes =
          some { exampleSelector with selectedIndex := some i } ∧
        exampleSelector.options.get? i = some o ∧
        JSName.str o.value = JSName.str "Dusk - by Rivelle" ∧
        (∀ j o2, j < i → exampleSelector.options.get? j = some o2 →
          JSName.str o2.value ≠ JSName.str "Dusk - by Rivelle") ∧
        (updateThemeSelector (JSName.str "Dusk - by Rivelle") exampleDom).2 = 1) ∧
    updateThemeSelector (JSName.str "Celestial") exampleDom = (exampleDom, 0) :=
  ⟨(updateThemeSelector_selects_first exampleDom exampleSelector
      (JSName.str "Dusk - by Rivelle") rfl).1
      ⟨{ value := "Dusk - by Rivelle", label := "Dusk - by Rivelle" },
        by simp [exampleSelector], rfl⟩,
   (updateThemeSelector_selects_first exampleDom exampleSelector
      (JSName.str "Celestial") rfl).2 (by decide)⟩

/-- C16: for every document and every name, `updateThemeSelector(name)` leaves the
option list of the selector unchanged (same options, hence same length, values, labels
and order), and it neither creates nor removes the selector. -/
theorem updateThemeSelector_keeps_options (dom : Dom) (presetName : JSName) :
    (updateThemeSelector presetName dom).1.themes.map (fun sel => sel.options) =
      dom.themes.map (fun sel => sel.options) := by
  cases hsel : dom.themes with
  | none => simp [updateThemeSelector, hsel]
  | some sel =>
      cases hf : findOption presetName sel.options 0 with
      | none => simp [updateThemeSelector, hsel, hf]
      | some i => simp [updateThemeSelector, hsel, hf]

/-- C17: when the host element `themes` is absent, `updateThemeSelector` dispatches no
event and leaves the document unchanged, `integrateWithThemeSelector` leaves the whole
state unchanged (no listener is attached, the settings are not written), and
`isMoonlitPresetSelected` returns false.  All three are total functions: none of them
raises an error. -/
theorem selector_absent_is_noop (w : World) (presetName : JSName)
    (h : w.dom.themes = none) :
    updateThemeSelector presetName w.dom = (w.dom, 0) ∧
    integrateWithThemeSelector w = w ∧
    isMoonlitPresetSelected w = false := by
  refine ⟨?_, ?_, ?_⟩
  · simp [updateThemeSelector, h]
  · simp [integrateWithThemeSelector, h]
  · simp [isMoonlitPresetSelected, h]

theorem selector_absent_is_noop_witness :
    updateThemeSelector (JSName.str "Default") worldWithoutSelector.dom =
      (worldWithoutSelector.dom, 0) ∧
    integrateWithThemeSelector worldWithoutSelector = worldWithoutSelector ∧
    isMoonlitPresetSelected worldWithoutSelector = false :=
  selector_absent_is_noop worldWithoutSelector (JSName.str "Default") rfl

/-! The event handlers -/

/-- C18, counterexample: the empty string is a key of the registry and differs from
activePreset, the selected option has the empty string as value, and
`handleMoonlitThemeChange` loads no preset: `isMoonlitPreset` rejects a falsy name
before it looks at the registry. -/
theorem themeChange_skips_empty_name :
    emptyNameSelector.value = "" ∧
    "" ∈ emptyNameWorld.settings.presets ∧
    emptyNameWorld.settings.activePreset ≠ "" ∧
    (handleMoonlitThemeChange quietOps (some emptyNameSelector) emptyNameWorld).calls
      = [] :=
  ⟨by decide, by decide, by decide, by rfl⟩

/-- C18, amended: for every settings state and selected theme value `v`,
`handleMoonlitThemeChange` calls `loadPreset(v)`, once, exactly when `v` is a non-empty
string that is a key of the registry and differs from activePreset; otherwise it calls
no preset operation and leaves the state unchanged. -/
theorem themeChange_loads_registered_preset (ops : PresetOps)
    (currentTarget : Option ThemeSelector) (sel : ThemeSelector) (w : World)
    (hsel : currentTarget = some sel ∨ (currentTarget = none ∧ w.dom.themes = some sel)) :
    ((sel.value ≠ "" ∧ sel.value ∈ w.settings.presets ∧
        sel.value ≠ w.settings.activePreset) →
      (handleMoonlitThemeChange ops currentTarget w).calls =
          [OpCall.loadPreset sel.value] ∧
        (handleMoonlitThemeChange ops currentTarget w).world =
          (ops.loadPreset sel.value w).1) ∧
    (¬ (sel.value ≠ "" ∧ sel.value ∈ w.settings.presets ∧
        sel.value ≠ w.settings.activePreset) →
      (handleMoonlitThemeChange ops currentTarget w).calls = [] ∧
        (handleMoonlitThemeChange ops currentTarget w).world = w) := by
  have hres : handleMoonlitThemeChange ops currentTarget w =
      (if !isMoonlitPreset sel.value w.settings then
        { world := w, calls := [], error := none }
      else if w.settings.activePreset = sel.value then
        { world := w, calls := [], error := none }
      else
        { world := (ops.loadPreset sel.value w).1
          calls := [OpCall.loadPreset sel.value]
          error := none }) := by
    rcases hsel with h | ⟨h1, h2⟩
    · subst h; rfl
    · subst h1; simp only [handleMoonlitThemeChange, h2]
  rw [hres]
  constructor
  · rintro ⟨hne, hmem, hact⟩
    have h1 : isMoonlitPreset sel.value w.settings = true := by
      simp [isMoonlitPreset, hne, hmem]
    have h2 : ¬ (w.settings.activePreset = sel.value) := fun e => hact e.symm
    simp [h1, h2]
  · intro hnot
    by_cases h1 : isMoonlitPreset sel.value w.settings = true
    · have hk : sel.value ≠ "" ∧ sel.value ∈ w.settings.presets := by
        unfold isMoonlitPreset at h1
        by_cases he : sel.value = ""
        · simp [he] at h1
        · simpa [he] using h1
      have h2 : w.settings.activePreset = sel.value := by
        by_contra hc
        exact hnot ⟨hk.1, hk.2, fun e => hc e.symm⟩
      simp [h1, h2]
    · simp [h1]

theorem themeChange_loads_registered_preset_witness :
    ((handleMoonlitThemeChange quietOps (some exampleSelector) duskWorld).calls =
        [OpCall.loadPreset exampleSelector.value] ∧
      (handleMoonlitThemeChange quietOps (some exampleSelector) duskWorld).world =
        (quietOps.loadPreset exampleSelector.value duskWorld).1) ∧
    ((handleMoonlitThemeChange quietOps none exampleWorld).calls = [] ∧
      (handleMoonlitThemeChange quietOps none exampleWorld).world = exampleWorld) :=
  ⟨(themeChange_loads_registered_preset quietOps (some exampleSelector) exampleSelector
      duskWorld (Or.inl rfl)).1 ⟨by decide, by decide, by decide⟩,
   (themeChange_loads_registered_preset quietOps none exampleSelector exampleWorld
      (Or.inr ⟨rfl, rfl⟩)).2 (fun h => h.2.2 (by decide))⟩

/-- C19: for every file text, `handleMoonlitPresetFileImport` lets no error escape; it
hands the parsed value to `handleMoonlitPresetImport`, once, when the text parses to an
object with a truthy `moonlitEchoesPreset` field; and for every other text (a
SyntaxError, `null`, a value that is not an object, an object without a truthy marker)
it calls nothing and leaves the state, the registry included, unchanged. -/
theorem fileImport_passes_only_marked_objects (parse : String → Option JSON)
    (ops : PresetOps) (text : String) (w : World) :
    (handleMoonlitPresetFileImport parse ops (some text) w).error = none ∧
    ((∃ props v, parse text = some (JSON.obj props) ∧
        props.lookup "moonlitEchoesPreset" = some v ∧ v.truthy = true) →
      ∃ j, parse text = some j ∧
        (handleMoonlitPresetFileImport parse ops (some text) w).calls =
          [OpCall.handleMoonlitPresetImport j]) ∧
    ((¬ ∃ props v, parse text = some (JSON.obj props) ∧
        props.lookup "moonlitEchoesPreset" = some v ∧ v.truthy = true) →
      (handleMoonlitPresetFileImport parse ops (some text) w).calls = [] ∧
      (handleMoonlitPresetFileImport parse ops (some text) w).world = w) := by
  refine ⟨?_, ?_, ?_⟩
  · cases hp : parse text with
    | none => simp [handleMoonlitPresetFileImport, onPresetFileLoaded, hp]
    | some j =>
        cases hm : j.markerTruthy with
        | none => simp [handleMoonlitPresetFileImport, onPresetFileLoaded, hp, hm]
        | some b =>
            cases b <;> simp [handleMoonlitPresetFileImport, onPresetFileLoaded, hp, hm]
  · rintro ⟨props, v, hp, hl, hv⟩
    refine ⟨JSON.obj props, hp, ?_⟩
    simp [handleMoonlitPresetFileImport, onPresetFileLoaded, hp, JSON.markerTruthy, hl, hv]
  · intro hno
    cases hp : parse text with
    | none => simp [handleMoonlitPresetFileImport, onPresetFileLoaded, hp]
    | some j =>
        cases hm : j.markerTruthy with
        | none => simp [handleMoonlitPresetFileImport, onPresetFileLoaded, hp, hm]
        | some b =>
            cases b with
            | false => simp [handleMoonlitPresetFileImport, onPresetFileLoaded, hp, hm]
            | true =>
                exfalso
                cases j with
                | obj props =>
                    cases hl : props.lookup "moonlitEchoesPreset" with
                    | none => simp [JSON.markerTruthy, hl] at hm
                    | some v =>
                        have hv : v.truthy = true := by
                          simpa [JSON.markerTruthy, hl] using hm
                        exact hno ⟨props, v, hp, hl, hv⟩
                | null => simp [JSON.markerTruthy] at hm
                | bool b => simp [JSON.markerTruthy] at hm
                | num n => simp [JSON.markerTruthy] at hm
                | str t => simp [JSON.markerTruthy] at hm
                | arr items => simp [JSON.markerTruthy] at hm

theorem fileImport_passes_only_marked_objects_witness :
    (∃ j, exampleParse "\x7b\"moonlitEchoesPreset\":true\x7d" = some j ∧
      (handleMoonlitPresetFileImport exampleParse throwingOps
        (some "\x7b\"moonlitEchoesPreset\":true\x7d") exampleWorld).calls =
          [OpCall.handleMoonlitPresetImport j]) ∧
    ((handleMoonlitPresetFileImport exampleParse throwingOps
        (some "not json") exampleWorld).calls = [] ∧
      (handleMoonlitPresetFileImport exampleParse throwingOps
        (some "not json") exampleWorld).world = exampleWorld) :=
  ⟨(fileImport_passes_only_marked_objects exampleParse throwingOps
      "\x7b\"moonlitEchoesPreset\":true\x7d" exampleWorld).2.1
      ⟨[("moonlitEchoesPreset", JSON.bool true)], JSON.bool true, by rfl, by rfl, rfl⟩,
   (fileImport_passes_only_marked_objects exampleParse throwingOps
      "not json" exampleWorld).2.2
      (fun ⟨_, _, hp, _, _⟩ => by
        have hnone : exampleParse "not json" = none := by rfl
        rw [hnone] at hp
        exact Option.noConfusion hp)⟩

theorem handleMoonlitThemeChange_error (ops : PresetOps)
    (currentTarget : Option ThemeSelector) (w : World) :
    (handleMoonlitThemeChange ops currentTarget w).error = none := by
  cases currentTarget with
  | some sel =>
      simp only [handleMoonlitThemeChange]
      split_ifs <;> rfl
  | none =>
      cases h : w.dom.themes with
      | none => simp [handleMoonlitThemeChange, h]
      | some sel =>
          simp only [handleMoonlitThemeChange, h]
          split_ifs <;> rfl

/-- C20, evaluated at a failing input: a Moonlit preset is selected and every preset
operation throws; the five button click handlers let the error escape. -/
theorem click_handlers_let_error_escape :
    isMoonlitPresetSelected exampleWorld = true ∧
    (handleMoonlitImportButtonClick throwingOps exampleWorld).error = some "failed" ∧
    (handleMoonlitExportButtonClick throwingOps exampleWorld).error = some "failed" ∧
    (handleMoonlitUpdateButtonClick throwingOps exampleWorld).error = some "failed" ∧
    (handleMoonlitSaveButtonClick throwingOps exampleWorld).error = some "failed" ∧
    (handleMoonlitDeleteButtonClick throwingOps exampleWorld).error = some "failed" :=
  ⟨by decide, by decide, by decide, by decide, by decide, by decide⟩

/-! Chat display styles -/

theorem filter_mem_classListRemove (classes names : List String) :
    (classListRemove classes names).filter (fun c => decide (c ∈ names)) = [] := by
  unfold classListRemove
  rw [List.filter_filter]
  apply List.filter_eq_nil_iff.mpr
  intro c _
  simp

theorem mem_classListRemove {classes names : List String} {c : String} :
    c ∈ classListRemove classes names ↔ c ∈ classes ∧ c ∉ names := by
  simp [classListRemove]

theorem classListAdd_removed (classes : List String) {name : String}
    (h : name ∈ chatStyleClasses) :
    classListAdd (classListRemove classes chatStyleClasses) name =
      classListRemove classes chatStyleClasses ++ [name] := by
  unfold classListAdd
  rw [if_neg]
  intro hmem
  exact (mem_classListRemove.mp hmem).2 h

theorem applyChatDisplayStyle_eq (sel : ChatDisplaySelect) (bodyClasses : List String) :
    applyChatDisplayStyle sel bodyClasses =
      classListRemove bodyClasses chatStyleClasses ++ (styleClassOfValue sel.value).toList := by
  unfold applyChatDisplayStyle
  split
  all_goals first
    | (rename_i hv
       rw [classListAdd_removed _ (by decide), hv]
       rfl)
    | (rename_i h0 h1 h2 h3 h4 h5 h6 h7
       have e : ∀ k : String, (sel.value = k → False) → (sel.value == k) = false :=
         fun k hk => by simpa using hk
       have hnone : styleClassOfValue sel.value = none := by
         simp [styleClassOfValue, chatStyleClasses, List.lookup, e _ h0, e _ h1, e _ h2,
           e _ h3, e _ h4, e _ h5, e _ h6, e _ h7]
       simp [hnone])

theorem switchChatStyle_bodyClasses (styleName styleValue : String) (p : Page)
    (sel : ChatDisplaySelect) (h : p.chatDisplay = some sel)
    (hv : validToken styleName = true) :
    (switchChatStyle styleName styleValue p).2.bodyClasses =
      classListAdd (classListRemove p.bodyClasses chatStyleClasses) styleName := by
  unfold switchChatStyle
  simp only [h, hv]
  cases p.storageWritable <;> rfl

theorem slashCommand_cases {cmd : SlashCommandReg} (h : cmd ∈ slashCommands) :
    cmd.styleName ∈ chatStyleClasses ∧ validToken cmd.styleName = true ∧
      styleClassOfValue cmd.styleValue = some cmd.styleName := by
  simp only [slashCommands, List.mem_cons, List.mem_singleton, List.not_mem_nil,
    or_false] at h
  rcases h with h | h | h | h | h | h | h | h <;> subst h <;>
    exact ⟨by decide, by decide, by decide⟩

theorem filter_style_append (classes : List String) (o : Option String)
    (ho : ∀ c, o = some c → c ∈ chatStyleClasses) :
    (classListRemove classes chatStyleClasses ++ o.toList).filter
      (fun c => decide (c ∈ chatStyleClasses)) = o.toList := by
  rw [List.filter_append, filter_mem_classListRemove]
  cases o with
  | none => rfl
  | some c => simp [ho c rfl]

theorem styleClassOfValue_mem {v c : String} (h : styleClassOfValue v = some c) :
    c ∈ chatStyleClasses := by
  unfold styleClassOfValue at h
  simp only [chatStyleClasses, List.zip_cons_cons, List.zip_nil_right, List.lookup] at h
  repeat (split at h; · (cases h; decide))
  cases h

/-- Where the chat-style invariant is kept.  After `applyChatDisplayStyle` the chat-style
classes on the body are exactly the class that the selector value stands for ("0" to "7", in the order flatchat,
bubblechat, documentstyle, echostyle, whisperstyle, hushstyle, ripplestyle, tidestyle)
and none for any other value; after `switchChatStyle` has succeeded, with any arguments,
the body carries at most one of the eight classes, and after a registered slash command
it is exactly the class of that command, which is the class its value stands for.
After `applyChatDisplayStyle` and after a registered command every class outside the
eight is on the body exactly if it was before. -/
theorem chat_style_at_most_one (sel : ChatDisplaySelect) (bodyClasses : List String)
    (cmd : SlashCommandReg) (p : Page) (c : String) (styleName styleValue : String)
    (q : Page)
    (hcmd : cmd ∈ slashCommands)
    (hok : (switchChatStyle cmd.styleName cmd.styleValue p).1 =
      SwitchResult.switched cmd.styleName)
    (hany : (switchChatStyle styleName styleValue q).1 = SwitchResult.switched styleName) :
    ((applyChatDisplayStyle sel bodyClasses).filter
        (fun x => decide (x ∈ chatStyleClasses)) = (styleClassOfValue sel.value).toList ∧
      ((applyChatDisplayStyle sel bodyClasses).filter
        (fun x => decide (x ∈ chatStyleClasses))).length ≤ 1 ∧
      (c ∉ chatStyleClasses →
        (c ∈ applyChatDisplayStyle sel bodyClasses ↔ c ∈ bodyClasses))) ∧
    ((switchChatStyle cmd.styleName cmd.styleValue p).2.bodyClasses.filter
        (fun x => decide (x ∈ chatStyleClasses)) = [cmd.styleName] ∧
      styleClassOfValue cmd.styleValue = some cmd.styleName ∧
      (c ∉ chatStyleClasses →
        (c ∈ (switchChatStyle cmd.styleName cmd.styleValue p).2.bodyClasses ↔
          c ∈ p.bodyClasses))) ∧
    ((switchChatStyle styleName styleValue q).2.bodyClasses.filter
      (fun x => decide (x ∈ chatStyleClasses))).length ≤ 1 := by
  obtain ⟨hmem, hvalid, hmap⟩ := slashCommand_cases hcmd
  have happly := filter_style_append bodyClasses (styleClassOfValue sel.value)
    (fun c hc => styleClassOfValue_mem hc)
  refine ⟨?_, ?_, ?_⟩
  · rw [applyChatDisplayStyle_eq]
    refine ⟨happly, ?_, ?_⟩
    · rw [happly]
      cases styleClassOfValue sel.value <;> simp
    · intro hc
      rw [List.mem_append, mem_classListRemove]
      constructor
      · rintro (⟨h, _⟩ | h)
        · exact h
        · cases hv : styleClassOfValue sel.value with
          | none => simp [hv] at h
          | some x =>
              simp [hv] at h
              exact absurd (h ▸ styleClassOfValue_mem hv) hc
      · intro h
        exact Or.inl ⟨h, hc⟩
  · cases hsel : p.chatDisplay with
    | none => simp [switchChatStyle, hsel] at hok
    | some sel0 =>
        rw [switchChatStyle_bodyClasses _ _ p sel0 hsel hvalid, classListAdd_removed _ hmem]
        refine ⟨?_, hmap, ?_⟩
        · have := filter_style_append p.bodyClasses (some cmd.styleName)
            (fun c hc => by cases hc; exact hmem)
          simpa using this
        · intro hc
          rw [List.mem_append, mem_classListRemove]
          constructor
          · rintro (⟨h, _⟩ | h)
            · exact h
            · simp at h
              exact absurd (h ▸ hmem) hc
          · intro h
            exact Or.inl ⟨h, hc⟩
  · cases hsel : q.chatDisplay with
    | none => simp [switchChatStyle, hsel] at hany
    | some sel0 =>
        have hvalid2 : validToken styleName = true := by
          by_contra hv
          simp [switchChatStyle, hsel, hv] at hany
        rw [switchChatStyle_bodyClasses _ _ q sel0 hsel hvalid2]
        unfold classListAdd
        split_ifs with hin
        · rw [filter_mem_classListRemove]; simp
        · rw [List.filter_append, filter_mem_classListRemove]
          simp only [List.nil_append]
          by_cases hs : styleName ∈ chatStyleClasses
          · simp [List.filter_cons, hs]
          · simp [List.filter_cons, hs]

theorem chat_style_at_most_one_witness :
    ((applyChatDisplayStyle { options := ["0", "3"], value := "3" }
        ["no-blur", "bubblechat"]).filter
        (fun x => decide (x ∈ chatStyleClasses)) =
          (styleClassOfValue "3").toList ∧
      ((applyChatDisplayStyle { options := ["0", "3"], value := "3" }
        ["no-blur", "bubblechat"]).filter
        (fun x => decide (x ∈ chatStyleClasses))).length ≤ 1 ∧
      ("no-blur" ∉ chatStyleClasses →
        ("no-blur" ∈ applyChatDisplayStyle { options := ["0", "3"], value := "3" }
          ["no-blur", "bubblechat"] ↔ "no-blur" ∈ ["no-blur", "bubblechat"]))) ∧
    ((switchChatStyle "echostyle" "3" examplePage).2.bodyClasses.filter
        (fun x => decide (x ∈ chatStyleClasses)) = ["echostyle"] ∧
      styleClassOfValue "3" = some "echostyle" ∧
      ("no-blur" ∉ chatStyleClasses →
        ("no-blur" ∈ (switchChatStyle "echostyle" "3" examplePage).2.bodyClasses ↔
          "no-blur" ∈ examplePage.bodyClasses))) ∧
    ((switchChatStyle "custom-style" "9" examplePage).2.bodyClasses.filter
      (fun x => decide (x ∈ chatStyleClasses))).length ≤ 1 :=
  chat_style_at_most_one { options := ["0", "3"], value := "3" } ["no-blur", "bubblechat"]
    { name := "echostyle", styleName := "echostyle", styleValue := "3" } examplePage
    "no-blur" "custom-style" "9" examplePage (by decide) (by decide) (by decide)

/-- After a registered slash command has succeeded on a selector that has an option for
the value of the command, the selector holds that value. -/
theorem switchChatStyle_selector_value (cmd : SlashCommandReg) (p : Page)
    (sel : ChatDisplaySelect) (hsel : p.chatDisplay = some sel)
    (hopt : cmd.styleValue ∈ sel.options) :
    (switchChatStyle cmd.styleName cmd.styleValue p).2.chatDisplay =
      some { sel with value := cmd.styleValue } := by
  unfold switchChatStyle
  rw [hsel]
  simp only [ChatDisplaySelect.setValue, if_pos hopt]
  split_ifs <;> rfl

/-- C24, evaluated at a failing input: `chat_display` holds the options "0", "1" and "2"
only and the registered command `/echostyle` runs `switchChatStyle("echostyle", "3")`.
The call succeeds; the assignment of "3" selects nothing, so the selector reads as the
empty string, a value outside "0" to "7", and yet the body carries `echostyle`.
`applyChatDisplayStyle` on the same selector leaves none of the eight classes. -/
theorem switchChatStyle_class_without_selector_value :
    ({ name := "echostyle", styleName := "echostyle", styleValue := "3" } :
      SlashCommandReg) ∈ slashCommands ∧
    (switchChatStyle "echostyle" "3" hostOnlyPage).1 = SwitchResult.switched "echostyle" ∧
    (switchChatStyle "echostyle" "3" hostOnlyPage).2.chatDisplay =
      some { options := ["0", "1", "2"], value := "" } ∧
    styleClassOfValue "" = none ∧
    (switchChatStyle "echostyle" "3" hostOnlyPage).2.bodyClasses =
      ["no-blur", "echostyle"] ∧
    applyChatDisplayStyle { options := ["0", "1", "2"], value := "" }
      (switchChatStyle "echostyle" "3" hostOnlyPage).2.bodyClasses = ["no-blur"] :=
  ⟨by decide, by decide, by decide, by decide, by decide, by decide⟩

/-- C28: for each of the eight registered slash commands, when `chat_display` is
present the class list that `switchChatStyle(styleName, styleValue)` leaves on the body
is the class list that `applyChatDisplayStyle` produces from the same body when the
selector holds `styleValue`; the class both add is `styleName`. -/
theorem slash_command_agrees_with_switcher (cmd : SlashCommandReg) (p : Page)
    (sel : ChatDisplaySelect) (hcmd : cmd ∈ slashCommands)
    (hsel : p.chatDisplay = some sel) :
    (switchChatStyle cmd.styleName cmd.styleValue p).2.bodyClasses =
      applyChatDisplayStyle { sel with value := cmd.styleValue } p.bodyClasses ∧
    cmd.styleName ∈ (switchChatStyle cmd.styleName cmd.styleValue p).2.bodyClasses ∧
    cmd.styleName ∈
      applyChatDisplayStyle { sel with value := cmd.styleValue } p.bodyClasses := by
  obtain ⟨hmem, hvalid, hmap⟩ := slashCommand_cases hcmd
  have h1 : (switchChatStyle cmd.styleName cmd.styleValue p).2.bodyClasses =
      classListRemove p.bodyClasses chatStyleClasses ++ [cmd.styleName] := by
    rw [switchChatStyle_bodyClasses _ _ p sel hsel hvalid, classListAdd_removed _ hmem]
  have h2 : applyChatDisplayStyle { sel with value := cmd.styleValue } p.bodyClasses =
      classListRemove p.bodyClasses chatStyleClasses ++ [cmd.styleName] := by
    rw [applyChatDisplayStyle_eq]
    simp [hmap]
  rw [h1, h2]
  exact ⟨rfl, by simp, by simp⟩

theorem slash_command_agrees_with_switcher_witness :
    (switchChatStyle "bubblechat" "1" examplePage).2.bodyClasses =
      applyChatDisplayStyle
        { options := ["0", "1", "2", "3", "4", "5", "6", "7"], value := "1" }
        examplePage.bodyClasses ∧
    "bubblechat" ∈ (switchChatStyle "bubblechat" "1" examplePage).2.bodyClasses ∧
    "bubblechat" ∈
      applyChatDisplayStyle
        { options := ["0", "1", "2", "3", "4", "5", "6", "7"], value := "1" }
        examplePage.bodyClasses :=
  slash_command_agrees_with_switcher
    { name := "moonlit-bubble", styleName := "bubblechat", styleValue := "1" } examplePage
    { options := ["0", "1", "2", "3", "4", "5", "6", "7"], value := "1" }
    (by decide) rfl

/-! Custom settings -/

theorem any_key_false_of_lookup_none {β : Type} (vs : List (String × β)) (k : String)
    (h : vs.lookup k = none) : vs.any (fun p => p.1 == k) = false := by
  induction vs with
  | nil => rfl
  | cons p rest ih =>
      rw [List.lookup_cons] at h
      by_cases hk : (k == p.1) = true
      · simp [hk] at h
      · have hk2 : (k == p.1) = false := by simpa using hk
        simp only [hk2] at h
        have hne : (p.1 == k) = false := by
          simp only [beq_eq_false_iff_ne, ne_eq] at hk2 ⊢
          exact fun e => hk2 e.symm
        simp [List.any_cons, hne, ih h]

theorem lookup_setValue_new (vs : List (String × SettingValue)) (k k2 : String)
    (v : SettingValue) (h : vs.lookup k = none) :
    (setValue vs k v).lookup k2 = if k2 = k then some v else vs.lookup k2 := by
  unfold setValue
  rw [any_key_false_of_lookup_none vs k h]
  simp only [Bool.false_eq_true, if_false]
  rw [List.lookup_append]
  by_cases hk : k2 = k
  · subst hk
    simp [h, List.lookup_cons]
  · have hb : (k2 == k) = false := by simpa using hk
    simp [hk, List.lookup_cons, hb]

theorem lookup_none_of_not_defined {s : Settings} {k : String}
    (h : settingDefined s k = false) : s.values.lookup k = none := by
  unfold settingDefined at h
  simp only [Bool.or_eq_false_iff] at h
  cases hl : s.values.lookup k with
  | none => rfl
  | some v => simp [hl] at h

theorem settingDefined_of_lookup {s : Settings} {k : String} {v : SettingValue}
    (h : s.values.lookup k = some v) : settingDefined s k = true := by
  simp [settingDefined, h]

theorem addCustomSetting_settings_frame (cfg : Option SettingConfig) (st : ThemeState) :
    (addCustomSetting cfg st).settings.presets = st.settings.presets ∧
    (addCustomSetting cfg st).settings.activePreset = st.settings.activePreset ∧
    ∀ k v, st.settings.values.lookup k = some v →
      (addCustomSetting cfg st).settings.values.lookup k = some v := by
  unfold addCustomSetting
  cases cfg with
  | none => exact ⟨rfl, rfl, fun _ _ h => h⟩
  | some c =>
      simp only
      split_ifs with h1 h2 h3
      · exact ⟨rfl, rfl, fun _ _ h => h⟩
      · exact ⟨rfl, rfl, fun _ _ h => h⟩
      · exact ⟨rfl, rfl, fun _ _ h => h⟩
      · cases hd : c.default with
        | none => exact ⟨rfl, rfl, fun _ _ h => h⟩
        | some d =>
            refine ⟨rfl, rfl, fun k v h => ?_⟩
            have hnone := lookup_none_of_not_defined (by simpa using h3)
            simp only []
            rw [lookup_setValue_new _ _ _ _ hnone]
            by_cases hk : k = c.varId.getD ""
            · rw [hk, hnone] at h; cases h
            · rw [if_neg hk]; exact h

/-- C25: `addCustomSetting` keeps the varIds of `themeCustomSettings` pairwise distinct;
a configuration that is missing, has a falsy varId or type, or whose varId is already
in the list changes neither the list nor the settings; a value the settings object
holds is never overwritten, the registry and activePreset are not written, and a newly
added setting whose varId is undefined in the settings object receives its default. -/
theorem addCustomSetting_keeps_ids_unique (cfg : Option SettingConfig) (st : ThemeState)
    (k : String) (v : SettingValue) :
    ((st.themeCustomSettings.map (fun s => s.varId)).Nodup →
      ((addCustomSetting cfg st).themeCustomSettings.map (fun s => s.varId)).Nodup) ∧
    ((cfg = none ∨ ∃ c, cfg = some c ∧
        (truthyString c.varId = false ∨ truthyString c.type = false ∨
          ∃ e ∈ st.themeCustomSettings, e.varId = c.varId)) →
      addCustomSetting cfg st = st) ∧
    (st.settings.values.lookup k = some v →
      (addCustomSetting cfg st).settings.values.lookup k = some v) ∧
    (addCustomSetting cfg st).settings.presets = st.settings.presets ∧
    (addCustomSetting cfg st).settings.activePreset = st.settings.activePreset ∧
    (∀ c d, cfg = some c → truthyString c.varId = true → truthyString c.type = true →
      (∀ e ∈ st.themeCustomSettings, e.varId ≠ c.varId) →
      settingDefined st.settings (c.varId.getD "") = false → c.default = some d →
      (addCustomSetting cfg st).themeCustomSettings = st.themeCustomSettings ++ [c] ∧
      (addCustomSetting cfg st).settings.values.lookup (c.varId.getD "") = some d) := by
  obtain ⟨hp, ha, hv⟩ := addCustomSetting_settings_frame cfg st
  refine ⟨?_, ?_, hv k v, hp, ha, ?_⟩
  · intro hnodup
    unfold addCustomSetting
    cases cfg with
    | none => exact hnodup
    | some c =>
        simp only
        split_ifs with h1 h2 h3
        · exact hnodup
        · exact hnodup
        all_goals
          have hnot : ∀ e ∈ st.themeCustomSettings, e.varId ≠ c.varId := by
            intro e he heq
            apply h2
            rw [List.find?_isSome]
            exact ⟨e, he, by simpa using heq⟩
          simp only [List.map_append, List.map_cons, List.map_nil]
          rw [List.nodup_append]
          refine ⟨hnodup, List.nodup_singleton _, ?_⟩
          intro x hx hx2
          rw [List.mem_singleton] at hx2
          obtain ⟨e, he, hex⟩ := List.mem_map.mp hx
          exact hnot e he (hex.trans hx2)
  · rintro (h | ⟨c, hc, h⟩)
    · subst h; rfl
    · subst hc
      unfold addCustomSetting
      rcases h with h | h | ⟨e, he, heq⟩
      · simp [h]
      · simp [h]
      · have hfound : (st.themeCustomSettings.find?
            (fun s => decide (s.varId = c.varId))).isSome = true := by
          rw [List.find?_isSome]
          exact ⟨e, he, by simpa using heq⟩
        simp only [hfound, if_true]
        split_ifs <;> rfl
  · intro c d hc hvar htype hnew hundef hdef
    subst hc
    have hfound : ¬ ((st.themeCustomSettings.find?
        (fun s => decide (s.varId = c.varId))).isSome = true) := by
      rw [List.find?_isSome]
      rintro ⟨e, he, heq⟩
      exact hnew e he (by simpa using heq)
    have hres : addCustomSetting (some c) st =
        { themeCustomSettings := st.themeCustomSettings ++ [c]
          settings := { st.settings with
            values := setValue st.settings.values (c.varId.getD "") d } } := by
      unfold addCustomSetting
      simp [hvar, htype, hfound, hundef, hdef]
    rw [hres]
    refine ⟨rfl, ?_⟩
    simp only []
    rw [lookup_setValue_new _ _ _ _ (lookup_none_of_not_defined hundef)]
    simp

theorem addCustomSetting_keeps_ids_unique_witness :
    ((exampleThemeState.themeCustomSettings.map (fun s => s.varId)).Nodup →
      ((addCustomSetting (some fontCheckbox) exampleThemeState).themeCustomSettings.map
        (fun s => s.varId)).Nodup) ∧
    (addCustomSetting (some fontCheckbox) exampleThemeState).themeCustomSettings =
      exampleThemeState.themeCustomSettings ++ [fontCheckbox] ∧
    (addCustomSetting (some fontCheckbox) exampleThemeState).settings.values.lookup
      (fontCheckbox.varId.getD "") = some (SettingValue.bool false) ∧
    (exampleThemeState.settings.values.lookup "fontColor" = some (SettingValue.str "#fff") →
      (addCustomSetting (some fontCheckbox) exampleThemeState).settings.values.lookup
        "fontColor" = some (SettingValue.str "#fff")) :=
  have h := addCustomSetting_keeps_ids_unique (some fontCheckbox) exampleThemeState
    "fontColor" (SettingValue.str "#fff")
  have h6 := h.2.2.2.2.2 fontCheckbox (SettingValue.bool false) rfl (by decide)
    (by decide) (by decide) (by decide) rfl
  ⟨h.1, h6.1, h6.2, h.2.2.1⟩

theorem fillDefaults_step_frame (ext : Settings) (kv : String × SettingValue) :
    let ext2 : Settings :=
      if kv.1 ≠ "presets" ∧ kv.1 ≠ "activePreset" ∧ settingDefined ext kv.1 = false then
        { ext with values := setValue ext.values kv.1 kv.2 }
      else ext
    ext2.presets = ext.presets ∧ ext2.activePreset = ext.activePreset ∧
    (∀ k v, ext.values.lookup k = some v → ext2.values.lookup k = some v) ∧
    (kv.1 ≠ "presets" → kv.1 ≠ "activePreset" → settingDefined ext2 kv.1 = true) := by
  intro ext2
  by_cases h : kv.1 ≠ "presets" ∧ kv.1 ≠ "activePreset" ∧ settingDefined ext kv.1 = false
  · have hnone := lookup_none_of_not_defined h.2.2
    have he : ext2 = { ext with values := setValue ext.values kv.1 kv.2 } := if_pos h
    rw [he]
    refine ⟨rfl, rfl, ?_, ?_⟩
    · intro k v hk
      simp only []
      rw [lookup_setValue_new _ _ _ _ hnone]
      by_cases hkk : k = kv.1
      · rw [hkk, hnone] at hk; cases hk
      · rw [if_neg hkk]; exact hk
    · intro _ _
      apply settingDefined_of_lookup (v := kv.2)
      simp only []
      rw [lookup_setValue_new _ _ _ _ hnone]
      simp
  · have he : ext2 = ext := if_neg h
    rw [he]
    refine ⟨rfl, rfl, fun _ _ hk => hk, ?_⟩
    intro h1 h2
    by_contra hc
    exact h ⟨h1, h2, by simpa using hc⟩

theorem settingDefined_mono {s s2 : Settings} {k : String}
    (hv : ∀ k v, s.values.lookup k = some v → s2.values.lookup k = some v)
    (h : settingDefined s k = true) : settingDefined s2 k = true := by
  unfold settingDefined at h ⊢
  simp only [Bool.or_eq_true, decide_eq_true_eq] at h ⊢
  rcases h with ((h | h) | h) | h
  · exact Or.inl (Or.inl (Or.inl h))
  · exact Or.inl (Or.inl (Or.inr h))
  · obtain ⟨v, hv2⟩ := Option.isSome_iff_exists.mp h
    exact Or.inl (Or.inr (by rw [hv k v hv2]; rfl))
  · exact Or.inr h

theorem fillDefaults_spec (defaults : List (String × SettingValue)) :
    ∀ s : Settings,
      (fillDefaults defaults s).presets = s.presets ∧
      (fillDefaults defaults s).activePreset = s.activePreset ∧
      (∀ k v, s.values.lookup k = some v →
        (fillDefaults defaults s).values.lookup k = some v) ∧
      (∀ k, k ∈ defaults.map (fun kv => kv.1) → k ≠ "presets" → k ≠ "activePreset" →
        settingDefined (fillDefaults defaults s) k = true) := by
  induction defaults with
  | nil =>
      intro s
      exact ⟨rfl, rfl, fun _ _ h => h, fun k hk => by simp at hk⟩
  | cons kv rest ih =>
      intro s
      obtain ⟨h1, h2, h3, h4⟩ := fillDefaults_step_frame s kv
      obtain ⟨i1, i2, i3, i4⟩ := ih
        (if kv.1 ≠ "presets" ∧ kv.1 ≠ "activePreset" ∧ settingDefined s kv.1 = false then
          { s with values := setValue s.values kv.1 kv.2 }
        else s)
      have hunf : fillDefaults (kv :: rest) s = fillDefaults rest
          (if kv.1 ≠ "presets" ∧ kv.1 ≠ "activePreset" ∧ settingDefined s kv.1 = false then
            { s with values := setValue s.values kv.1 kv.2 }
          else s) := rfl
      rw [hunf]
      refine ⟨i1.trans h1, i2.trans h2, fun k v hk => i3 k v (h3 k v hk), ?_⟩
      intro k hk hp ha
      simp only [List.map_cons, List.mem_cons] at hk
      rcases hk with hk | hk
      · subst hk
        exact settingDefined_mono i3 (h4 hp ha)
      · exact i4 k hk hp ha

/-- C26: after the default-filling step of `initExtension`, every key of
`defaultSettings` other than `presets` and `activePreset` is defined in the extension
settings, every value the settings held before the step is still held, and the
registry and activePreset are as before. -/
theorem fillDefaults_fills_without_overwriting (defaults : List (String × SettingValue))
    (s : Settings) (k : String) (v : SettingValue) :
    (k ∈ defaults.map (fun kv => kv.1) → k ≠ "presets" → k ≠ "activePreset" →
      settingDefined (fillDefaults defaults s) k = true) ∧
    (s.values.lookup k = some v → (fillDefaults defaults s).values.lookup k = some v) ∧
    (fillDefaults defaults s).presets = s.presets ∧
    (fillDefaults defaults s).activePreset = s.activePreset := by
  obtain ⟨h1, h2, h3, h4⟩ := fillDefaults_spec defaults s
  exact ⟨h4 k, h3 k v, h1, h2⟩

theorem fillDefaults_fills_without_overwriting_witness :
    settingDefined
      (fillDefaults [("enabled", SettingValue.bool true),
                     ("fontColor", SettingValue.str "#123")] duskActive) "enabled" = true ∧
    (fillDefaults [("enabled", SettingValue.bool true),
                   ("fontColor", SettingValue.str "#123")] duskActive).values.lookup
        "fontColor" = some (SettingValue.str "#fff") :=
  ⟨(fillDefaults_fills_without_overwriting
      [("enabled", SettingValue.bool true), ("fontColor", SettingValue.str "#123")]
      duskActive "enabled" (SettingValue.bool true)).1 (by decide) (by decide) (by decide),
   (fillDefaults_fills_without_overwriting
      [("enabled", SettingValue.bool true), ("fontColor", SettingValue.str "#123")]
      duskActive "fontColor" (SettingValue.str "#fff")).2.1 (by decide)⟩

/-! Managed listeners -/

theorem lookup_map_update_ne (m : List (String × Handler)) (t t2 : String) (h : Handler)
    (hne : t2 ≠ t) :
    (m.map (fun p => if p.1 = t then (t, h) else p)).lookup t2 = m.lookup t2 := by
  induction m with
  | nil => rfl
  | cons p rest ih =>
      obtain ⟨a, b⟩ := p
      have h1 : (t2 == t) = false := by simpa using hne
      by_cases hp : a = t
      · subst hp
        simp only [List.map_cons, if_true, List.lookup_cons, h1]
        exact ih
      · simp only [List.map_cons, if_neg hp, List.lookup_cons]
        rw [ih]

theorem lookup_map_update_self (m : List (String × Handler)) (t : String) (h : Handler)
    (hany : m.any (fun p => p.1 == t) = true) :
    (m.map (fun p => if p.1 = t then (t, h) else p)).lookup t = some h := by
  induction m with
  | nil => simp at hany
  | cons p rest ih =>
      obtain ⟨a, b⟩ := p
      by_cases hp : a = t
      · subst hp
        simp [List.lookup_cons]
      · have h2 : (t == a) = false := by
          simp only [beq_eq_false_iff_ne, ne_eq]
          exact fun e => hp e.symm
        have hrest : rest.any (fun p => p.1 == t) = true := by
          simpa [List.any_cons, hp] using hany
        simp only [List.map_cons, if_neg hp, List.lookup_cons, h2]
        exact ih hrest

theorem lookup_none_of_any_false (m : List (String × Handler)) (t : String)
    (hany : m.any (fun p => p.1 == t) = false) : m.lookup t = none := by
  induction m with
  | nil => rfl
  | cons p rest ih =>
      obtain ⟨a, b⟩ := p
      simp only [List.any_cons, Bool.or_eq_false_iff] at hany
      have h2 : (t == a) = false := by
        have := hany.1
        simp only [beq_eq_false_iff_ne, ne_eq] at this ⊢
        exact fun e => this e.symm
      simp only [List.lookup_cons, h2]
      exact ih hany.2

theorem lookup_setManaged (m : List (String × Handler)) (t t2 : String) (h : Handler) :
    (setManaged m t h).lookup t2 = if t2 = t then some h else m.lookup t2 := by
  unfold setManaged
  by_cases hany : m.any (fun p => p.1 == t) = true
  · rw [if_pos hany]
    by_cases hk : t2 = t
    · rw [if_pos hk, hk]; exact lookup_map_update_self m t h hany
    · rw [if_neg hk]; exact lookup_map_update_ne m t t2 h hk
  · rw [if_neg hany]
    have hnone := lookup_none_of_any_false m t (Bool.eq_false_iff.mpr hany)
    rw [List.lookup_append]
    by_cases hk : t2 = t
    · subst hk; simp [hnone, List.lookup_cons]
    · have hb : (t2 == t) = false := by simpa using hk
      simp [hk, List.lookup_cons, hb]

theorem mem_addEventListener {reg : List (String × Handler)} {t : String} {h : Handler}
    {x : String × Handler} :
    x ∈ addEventListener reg t h ↔ x ∈ reg ∨ x = (t, h) := by
  unfold addEventListener
  split_ifs with hm
  · constructor
    · exact Or.inl
    · rintro (hx | hx)
      · exact hx
      · rw [hx]; exact hm
  · simp

theorem nodup_addEventListener {reg : List (String × Handler)} (t : String) (h : Handler)
    (hn : reg.Nodup) : (addEventListener reg t h).Nodup := by
  unfold addEventListener
  split_ifs with hm
  · exact hn
  · rw [List.nodup_append]
    refine ⟨hn, List.nodup_singleton _, ?_⟩
    intro x hx hx2
    rw [List.mem_singleton] at hx2
    exact hm (hx2 ▸ hx)

theorem attach_eq_of_none (el : Listeners) (t : String) (h : Handler)
    (hl : (el.managed.getD []).lookup t = none) :
    attachMoonlitListener (some el) t h =
      some { registered := addEventListener el.registered t h
             managed := some (setManaged (el.managed.getD []) t h) } := by
  simp [attachMoonlitListener, hl]

theorem attach_eq_of_same (el : Listeners) (t : String) (h : Handler)
    (hl : (el.managed.getD []).lookup t = some h) :
    attachMoonlitListener (some el) t h =
      some { el with managed := some (el.managed.getD []) } := by
  simp [attachMoonlitListener, hl]

theorem attach_eq_of_other (el : Listeners) (t : String) (h old : Handler)
    (hl : (el.managed.getD []).lookup t = some old) (hne : old ≠ h) :
    attachMoonlitListener (some el) t h =
      some { registered :=
               addEventListener (removeEventListener el.registered t old) t h
             managed := some (setManaged (el.managed.getD []) t h) } := by
  simp [attachMoonlitListener, hl, hne]

theorem attach_step (el : Listeners) (done : List (String × Handler)) (t : String)
    (h : Handler) (hc : ManagedConsistent el done) :
    ∃ el2, attachMoonlitListener (some el) t h = some el2 ∧
      ManagedConsistent el2 (done ++ [(t, h)]) ∧
      (el2.managed.getD []).lookup t = some h ∧
      ∀ t2, t2 ≠ t → (el2.managed.getD []).lookup t2 = (el.managed.getD []).lookup t2 := by
  obtain ⟨hn, hreg, hdone⟩ := hc
  cases hl : (el.managed.getD []).lookup t with
  | none =>
      refine ⟨_, attach_eq_of_none el t h hl, ⟨nodup_addEventListener t h hn, ?_, ?_⟩, ?_, ?_⟩
      · intro t2 h2 hm
        simp only [Option.getD_some] at hm
        rw [lookup_setManaged] at hm
        rw [mem_addEventListener]
        by_cases hk : t2 = t
        · rw [if_pos hk] at hm
          exact Or.inr (by rw [hk, Option.some.inj hm])
        · rw [if_neg hk] at hm
          exact Or.inl (hreg t2 h2 hm)
      · intro t2 h2 hd hr
        simp only [Option.getD_some]
        rw [lookup_setManaged]
        rw [mem_addEventListener] at hr
        by_cases hk : t2 = t
        · rw [if_pos hk]
          rcases hr with hr | hr
          · rcases List.mem_append.mp hd with hd | hd
            · have := hdone t2 h2 hd hr
              rw [hk, hl] at this; cases this
            · simp only [List.mem_singleton, Prod.mk.injEq] at hd
              rw [hd.2]
          · simp only [Prod.mk.injEq] at hr
            rw [hr.2]
        · rw [if_neg hk]
          rcases hr with hr | hr
          · rcases List.mem_append.mp hd with hd | hd
            · exact hdone t2 h2 hd hr
            · simp only [List.mem_singleton, Prod.mk.injEq] at hd
              exact absurd hd.1 hk
          · simp only [Prod.mk.injEq] at hr
            exact absurd hr.1 hk
      · simp only [Option.getD_some]
        rw [lookup_setManaged, if_pos rfl]
      · intro t2 hk
        simp only [Option.getD_some]
        rw [lookup_setManaged, if_neg hk]
  | some old =>
      by_cases hne : old = h
      · subst hne
        refine ⟨_, attach_eq_of_same el t old hl, ⟨hn, ?_, ?_⟩, ?_, ?_⟩
        · intro t2 h2 hm
          exact hreg t2 h2 (by simpa using hm)
        · intro t2 h2 hd hr
          simp only [Option.getD_some]
          rcases List.mem_append.mp hd with hd | hd
          · exact hdone t2 h2 hd hr
          · simp only [List.mem_singleton, Prod.mk.injEq] at hd
            rw [hd.1, hd.2]; exact hl
        · simpa using hl
        · intro t2 _
          simp
      · have hmem : ∀ x, x ∈ removeEventListener el.registered t old ↔
            x ≠ (t, old) ∧ x ∈ el.registered := fun x => hn.mem_erase_iff
        refine ⟨_, attach_eq_of_other el t h old hl hne,
          ⟨nodup_addEventListener t h (hn.erase _), ?_, ?_⟩, ?_, ?_⟩
        · intro t2 h2 hm
          simp only [Option.getD_some] at hm
          rw [lookup_setManaged] at hm
          rw [mem_addEventListener, hmem]
          by_cases hk : t2 = t
          · rw [if_pos hk] at hm
            exact Or.inr (by rw [hk, Option.some.inj hm])
          · rw [if_neg hk] at hm
            refine Or.inl ⟨?_, hreg t2 h2 hm⟩
            intro e
            simp only [Prod.mk.injEq] at e
            exact hk e.1
        · intro t2 h2 hd hr
          simp only [Option.getD_some]
          rw [lookup_setManaged]
          rw [mem_addEventListener, hmem] at hr
          by_cases hk : t2 = t
          · rw [if_pos hk]
            rcases hr with ⟨hx, hr⟩ | hr
            · rcases List.mem_append.mp hd with hd | hd
              · have := hdone t2 h2 hd hr
                rw [hk, hl] at this
                exact absurd (by rw [hk, Option.some.inj this]) hx
              · simp only [List.mem_singleton, Prod.mk.injEq] at hd
                rw [hd.2]
            · simp only [Prod.mk.injEq] at hr
              rw [hr.2]
          · rw [if_neg hk]
            rcases hr with ⟨_, hr⟩ | hr
            · rcases List.mem_append.mp hd with hd | hd
              · exact hdone t2 h2 hd hr
              · simp only [List.mem_singleton, Prod.mk.injEq] at hd
                exact absurd hd.1 hk
            · simp only [Prod.mk.injEq] at hr
              exact absurd hr.1 hk
        · simp only [Option.getD_some]
          rw [lookup_setManaged, if_pos rfl]
        · intro t2 hk
          simp only [Option.getD_some]
          rw [lookup_setManaged, if_neg hk]

theorem attachAll_consistent (t : String) :
    ∀ (calls : List (String × Handler)) (el : Listeners) (done : List (String × Handler))
      (acc : Option Handler),
      ManagedConsistent el done →
      (∀ h, acc = some h → (el.managed.getD []).lookup t = some h) →
      ∃ el2, attachAll (some el) calls = some el2 ∧
        ManagedConsistent el2 (done ++ calls) ∧
        ∀ h, calls.foldl (fun acc c => if c.1 = t then some c.2 else acc) acc = some h →
          (el2.managed.getD []).lookup t = some h
  | [], el, done, acc, hc, hacc => by
      refine ⟨el, rfl, by simpa using hc, ?_⟩
      intro h hh
      exact hacc h hh
  | c :: rest, el, done, acc, hc, hacc => by
      obtain ⟨el1, he1, hc1, hl1, hother⟩ := attach_step el done c.1 c.2 hc
      have hacc1 : ∀ h, (if c.1 = t then some c.2 else acc) = some h →
          (el1.managed.getD []).lookup t = some h := by
        intro h hh
        by_cases hk : c.1 = t
        · rw [if_pos hk] at hh
          rw [← hk, ← Option.some.inj hh]; exact hl1
        · rw [if_neg hk] at hh
          rw [hother t (fun e => hk e.symm)]
          exact hacc h hh
      obtain ⟨el2, he2, hc2, hl2⟩ :=
        attachAll_consistent t rest el1 (done ++ [(c.1, c.2)]) _ hc1 hacc1
      refine ⟨el2, ?_, ?_, ?_⟩
      · show attachAll (attachMoonlitListener (some el) c.1 c.2) rest = some el2
        rw [he1]; exact he2
      · simpa [List.append_assoc] using hc2
      · intro h hh
        exact hl2 h hh

theorem filter_eq_length_one_of_nodup {α : Type} [DecidableEq α] {l : List α} {a : α}
    (hn : l.Nodup) (hm : a ∈ l) : (l.filter (fun x => decide (x = a))).length = 1 := by
  induction l with
  | nil => cases hm
  | cons b rest ih =>
      rw [List.nodup_cons] at hn
      by_cases hb : b = a
      · subst hb
        have hnil : rest.filter (fun x => decide (x = b)) = [] := by
          apply List.filter_eq_nil_iff.mpr
          intro x hx
          simp only [decide_eq_true_eq]
          intro e
          exact hn.1 (e ▸ hx)
        simp [List.filter_cons, hnil]
      · have hm2 : a ∈ rest := by
          rcases List.mem_cons.mp hm with e | e
          · exact absurd e.symm hb
          · exact e
        simp [List.filter_cons, hb, ih hn.2 hm2]

theorem attachAll_none (calls : List (String × Handler)) : attachAll none calls = none := by
  induction calls with
  | nil => rfl
  | cons c rest ih => exact ih

/-- C27: take an element on which `attachMoonlitListener` has not been called yet and
run any sequence of `attachMoonlitListener` calls on it.  For every event type `t`
that occurs in the sequence, the handler `h` of the most recent call for `t` is the
managed handler of `t` and is registered exactly once; every other handler that the
sequence attached for `t` is no longer registered; attaching `h` for `t` once more
changes nothing; and on a null element every call does nothing. -/
theorem attachMoonlitListener_keeps_one_managed (el : Listeners)
    (calls : List (String × Handler)) (t : String) (h h2 : Handler)
    (hnodup : el.registered.Nodup) (hfresh : el.managed = none)
    (hlast : lastAttached calls t = some h) :
    (∃ el2, attachAll (some el) calls = some el2 ∧
        (el2.managed.getD []).lookup t = some h ∧
        (el2.registered.filter (fun x => decide (x = (t, h)))).length = 1 ∧
        ((t, h2) ∈ calls → h2 ≠ h → (t, h2) ∉ el2.registered) ∧
        attachMoonlitListener (some el2) t h = some el2) ∧
    attachAll none calls = none ∧
    attachMoonlitListener none t h = none := by
  have hc : ManagedConsistent el [] := by
    refine ⟨hnodup, ?_, ?_⟩
    · intro t1 h1 hm
      simp [hfresh] at hm
    · intro t1 h1 hd
      simp at hd
  obtain ⟨el2, he2, ⟨hn2, hreg2, hdone2⟩, hl2⟩ :=
    attachAll_consistent t calls el [] none hc (fun _ hh => by cases hh)
  have hmanaged : (el2.managed.getD []).lookup t = some h := hl2 h hlast
  refine ⟨⟨el2, he2, hmanaged, ?_, ?_, ?_⟩, attachAll_none calls, rfl⟩
  · exact filter_eq_length_one_of_nodup hn2 (hreg2 t h hmanaged)
  · intro hmem hne hr
    have := hdone2 t h2 (by simpa using hmem) hr
    rw [hmanaged] at this
    exact hne (Option.some.inj this).symm
  · rw [attach_eq_of_same el2 t h hmanaged]
    cases hm : el2.managed with
    | none => simp [hm] at hmanaged
    | some m =>
        cases el2
        simp only at hm
        subst hm
        rfl

theorem attachMoonlitListener_keeps_one_managed_witness :
    (∃ el2, attachAll (some bareElement)
          [("change", Handler.handleMoonlitThemeChange),
           ("click", Handler.handleMoonlitImportButtonClick),
           ("change", Handler.handleMoonlitPresetFileImport)] = some el2 ∧
        (el2.managed.getD []).lookup "change" =
          some Handler.handleMoonlitPresetFileImport ∧
        (el2.registered.filter (fun x =>
          decide (x = ("change", Handler.handleMoonlitPresetFileImport)))).length = 1 ∧
        (("change", Handler.handleMoonlitThemeChange) ∈
            [("change", Handler.handleMoonlitThemeChange),
             ("click", Handler.handleMoonlitImportButtonClick),
             ("change", Handler.handleMoonlitPresetFileImport)] →
          Handler.handleMoonlitThemeChange ≠ Handler.handleMoonlitPresetFileImport →
          ("change", Handler.handleMoonlitThemeChange) ∉ el2.registered) ∧
        attachMoonlitListener (some el2) "change"
          Handler.handleMoonlitPresetFileImport = some el2) ∧
    attachAll none
      [("change", Handler.handleMoonlitThemeChange),
       ("click", Handler.handleMoonlitImportButtonClick),
       ("change", Handler.handleMoonlitPresetFileImport)] = none ∧
    attachMoonlitListener none "change" Handler.handleMoonlitPresetFileImport = none :=
  attachMoonlitListener_keeps_one_managed bareElement
    [("change", Handler.handleMoonlitThemeChange),
     ("click", Handler.handleMoonlitImportButtonClick),
     ("change", Handler.handleMoonlitPresetFileImport)]
    "change" Handler.handleMoonlitPresetFileImport Handler.handleMoonlitThemeChange
    (by decide) rfl (by decide)

/-! Checkbox styles -/

/-- C23, evaluated at a failing input: the extension is enabled, the checkbox setting
`enableCustomFont` has a cssFile and no cssBlock, its stored value is true and its
style element holds the CSS of the file.  `updateAllCheckboxStyles(true)` empties the
style element, whereas the checkbox's own `applyCss(true)` leaves it holding the CSS
of the file. -/
theorem updateAllCheckboxStyles_clears_file_style :
    fontEnabledSettings.enabled = true ∧
    fontEnabledSettings.values.lookup "enableCustomFont" = some (SettingValue.bool true) ∧
    updateAllCheckboxStyles true [fontCheckbox] fontEnabledSettings fontStyles =
      [("enableCustomFont", "")] ∧
    applyCss exampleFetchCss fontEnabledSettings fontCheckbox true fontStyles =
      [("enableCustomFont", "body \x7b font-family: serif; \x7d")] :=
  ⟨by decide, by decide, by decide, by decide⟩

/-! The colour picker -/

/-- C22, evaluated at a failing input: the picker is created on `rgba(255, 0, 0, 1)`,
the opacity slider is moved to 50, so that `rgba(255, 0, 0, 0.5)` is stored, and then
the hex colour `#00ff00` is entered in the text box.  The value stored afterwards has
opacity 1, the opacity at the time the picker was created, not the opacity 0.5 stored
immediately before the edit. -/
theorem hex_entry_resets_opacity :
    halfRedPicker.stored = { r := 255, g := 0, b := 0, alpha := 1 / 2 } ∧
    (onTextInputChange (ColorText.hex6 0 255 0) halfRedPicker).stored =
      { r := 0, g := 255, b := 0, alpha := 1 } ∧
    (onTextInputChange (ColorText.hex6 0 255 0) halfRedPicker).stored.alpha ≠
      halfRedPicker.stored.alpha := by
  have h1 : halfRedPicker.stored = { r := 255, g := 0, b := 0, alpha := 1 / 2 } := by
    simp only [halfRedPicker, onAlphaSliderInput, updateColorAndAlpha, clampSlider,
      createColorPicker]
    norm_num
    rw [show Int.toNat 50 = 50 from rfl]
    norm_num
  have h2 : (onTextInputChange (ColorText.hex6 0 255 0) halfRedPicker).stored =
      { r := 0, g := 255, b := 0, alpha := 1 } := by
    simp [onTextInputChange, halfRedPicker, onAlphaSliderInput, updateColorAndAlpha,
      createColorPicker, getAlphaFromRgba]
  refine ⟨h1, h2, ?_⟩
  rw [h1, h2]
  norm_num

/-! The synchronizer -/

theorem sync_eq (priorKeys : List String) (registry : Registry) (opts : List ThemeOption) :
    syncMoonlitPresetsWithThemeList priorKeys registry (some opts) =
      some ((opts ++ (registry.keys.filter
          (fun k => decide (k ∉ opts.map (fun o : ThemeOption => o.value)))).map
            (fun k => ({ value := k, label := k } : ThemeOption))).filter
        (fun o : ThemeOption =>
          !(decide (o.value ∈ priorKeys ∨ o.value ∈ registry.keys) &&
            decide (o.value ∉ registry.keys)))) := rfl

theorem sync_filter_value (priorKeys : List String) (registry : Registry)
    (opts : List ThemeOption) (n : String) (hn : n ∈ registry.keys) :
    ∃ result, syncMoonlitPresetsWithThemeList priorKeys registry (some opts) = some result ∧
      (result.filter (fun o => decide (o.value = n))).length =
        (opts.filter (fun o => decide (o.value = n))).length +
          if n ∈ opts.map (fun o => o.value) then 0 else 1 := by
  refine ⟨_, sync_eq priorKeys registry opts, ?_⟩
  rw [List.filter_filter]
  have hcongr : ∀ l : List ThemeOption,
      l.filter (fun o => decide (o.value = n) &&
        !(decide (o.value ∈ priorKeys ∨ o.value ∈ registry.keys) &&
          decide (o.value ∉ registry.keys))) =
      l.filter (fun o => decide (o.value = n)) := by
    intro l
    apply List.filter_congr
    intro o _
    by_cases ho : o.value = n
    · simp [ho, hn]
    · simp [ho]
  rw [hcongr, List.filter_append, List.length_append, List.filter_map, List.length_map,
    List.filter_filter]
  congr 1
  by_cases hin : n ∈ opts.map (fun o => o.value)
  · rw [if_pos hin, List.length_eq_zero]
    apply List.filter_eq_nil_iff.mpr
    intro k _
    simp only [Function.comp, Bool.and_eq_true, decide_eq_true_eq, not_and, not_not]
    intro hk
    rw [hk]; exact hin
  · rw [if_neg hin, ← filter_eq_length_one_of_nodup registry.keys_nodup hn]
    congr 1
    apply List.filter_congr
    intro k _
    by_cases hk : k = n
    · simp [Function.comp, hk, hin]
    · simp [Function.comp, hk]

theorem filter_value_length_le_one (n : String) :
    ∀ opts : List ThemeOption, (opts.map (fun x => x.value)).Nodup →
      (opts.filter (fun x => decide (x.value = n))).length ≤ 1
  | [], _ => by simp
  | x :: rest, h => by
      rw [List.map_cons, List.nodup_cons] at h
      by_cases hx : x.value = n
      · have hrest : rest.filter (fun y => decide (y.value = n)) = [] := by
          apply List.filter_eq_nil_iff.mpr
          intro y hy
          simp only [decide_eq_true_eq]
          intro hyv
          exact h.1 (List.mem_map.mpr ⟨y, hy, by rw [hyv, hx]⟩)
        rw [List.filter_cons_of_pos (by simpa using hx), hrest]
        simp
      · rw [List.filter_cons_of_neg (by simpa using hx)]
        exact filter_value_length_le_one n rest h.2

theorem sync_values_nodup (priorKeys : List String) (registry : Registry)
    (opts : List ThemeOption) (h : (opts.map (fun x => x.value)).Nodup) :
    ∃ result, syncMoonlitPresetsWithThemeList priorKeys registry (some opts) = some result ∧
      (result.map (fun x => x.value)).Nodup := by
  refine ⟨_, sync_eq priorKeys registry opts, ?_⟩
  refine List.Nodup.sublist (List.Sublist.map _ (List.filter_sublist _)) ?_
  rw [List.map_append, List.map_map]
  have hid : ((fun x : ThemeOption => x.value) ∘
      (fun k => ({ value := k, label := k } : ThemeOption))) = id := rfl
  rw [hid, List.map_id, List.nodup_append]
  refine ⟨h, List.Nodup.sublist (List.filter_sublist _) registry.keys_nodup, ?_⟩
  intro v hv hk
  have := (List.mem_filter.mp hk).2
  simp only [decide_eq_true_eq] at this
  exact this hv

/-- C21: when no two options of the selector share a value (an option is identified
by its value), then after `syncMoonlitPresetsWithThemeList` has run, for every name in
the preset registry the selector contains exactly one option with that value, and
every option of the selector either has a registry key as value or is an option that
was there before and whose value is neither a current nor a prior registry key.  The
option list then matches the registry keys together with the foreign options: every
earlier option whose value is a key or is not a prior key is still there, and again no
two options share a value. -/
theorem sync_postcondition (priorKeys : List String) (registry : Registry)
    (opts : List ThemeOption) (n : String) (o : ThemeOption)
    (hdistinct : (opts.map (fun x => x.value)).Nodup) :
    ∃ result,
      syncMoonlitPresetsWithThemeList priorKeys registry (some opts) = some result ∧
      (n ∈ registry → (result.filter (fun x => decide (x.value = n))).length = 1) ∧
      (o ∈ result →
        o.value ∈ registry ∨
          (o ∈ opts ∧ o.value ∉ priorKeys ∧ o.value ∉ registry)) ∧
      (o ∈ opts → (o.value ∈ registry ∨ o.value ∉ priorKeys) → o ∈ result) ∧
      (result.map (fun x => x.value)).Nodup := by
  refine ⟨_, sync_eq priorKeys registry opts, ?_, ?_, ?_, ?_⟩
  · intro hn
    have hk : n ∈ registry.keys := AList.mem_keys.mp hn
    obtain ⟨result, hres, hlen⟩ := sync_filter_value priorKeys registry opts n hk
    rw [sync_eq] at hres
    rw [Option.some.inj hres, hlen]
    have hle := filter_value_length_le_one n opts hdistinct
    by_cases hin : n ∈ opts.map (fun o => o.value)
    · rw [if_pos hin]
      have hpos : 1 ≤ (opts.filter (fun x => decide (x.value = n))).length := by
        obtain ⟨x, hx, hxv⟩ := List.mem_map.mp hin
        have hxm : x ∈ opts.filter (fun x => decide (x.value = n)) := by
          rw [List.mem_filter]
          exact ⟨hx, by simpa using hxv⟩
        exact List.length_pos_of_mem hxm
      omega
    · rw [if_neg hin]
      have hzero : (opts.filter (fun x => decide (x.value = n))).length = 0 := by
        rw [List.length_eq_zero]
        apply List.filter_eq_nil_iff.mpr
        intro x hx
        simp only [decide_eq_true_eq]
        intro hxv
        exact hin (List.mem_map.mpr ⟨x, hx, hxv⟩)
      omega
  · intro ho
    rw [List.mem_filter, List.mem_append] at ho
    obtain ⟨hmem, hkeep⟩ := ho
    by_cases hreg : o.value ∈ registry
    · exact Or.inl hreg
    · right
      have hk : o.value ∉ registry.keys := fun h => hreg (AList.mem_keys.mpr h)
      rcases hmem with hmem | hmem
      · refine ⟨hmem, ?_, hreg⟩
        intro hp
        simp [hp, hk] at hkeep
      · exfalso
        obtain ⟨k, hkm, hko⟩ := List.mem_map.mp hmem
        rw [List.mem_filter] at hkm
        apply hk
        rw [← hko]
        exact hkm.1
  · intro ho hkeep
    rw [List.mem_filter, List.mem_append]
    refine ⟨Or.inl ho, ?_⟩
    rcases hkeep with hreg | hprior
    · have hk : o.value ∈ registry.keys := AList.mem_keys.mp hreg
      simp [hk]
    · by_cases hk : o.value ∈ registry.keys
      · simp [hk]
      · simp [hk, hprior]
  · obtain ⟨result, hres, hnd⟩ := sync_values_nodup priorKeys registry opts hdistinct
    rw [sync_eq] at hres
    rw [Option.some.inj hres]
    exact hnd

theorem sync_postcondition_witness :
    ∃ result,
      syncMoonlitPresetsWithThemeList duskActive.presets.keys
        (presets.delete (JSName.str "Dusk - by Rivelle") duskActive).2.presets
        (some exampleSelector.options) = some result ∧
      ("Default" ∈ (presets.delete (JSName.str "Dusk - by Rivelle") duskActive).2.presets →
        (result.filter (fun x => decide (x.value = "Default"))).length = 1) ∧
      (({ value := "Dark Lite", label := "Dark Lite" } : ThemeOption) ∈ result →
        "Dark Lite" ∈ (presets.delete (JSName.str "Dusk - by Rivelle") duskActive).2.presets ∨
          (({ value := "Dark Lite", label := "Dark Lite" } : ThemeOption) ∈
              exampleSelector.options ∧
            "Dark Lite" ∉ duskActive.presets.keys ∧
            "Dark Lite" ∉
              (presets.delete (JSName.str "Dusk - by Rivelle") duskActive).2.presets)) ∧
      (({ value := "Dark Lite", label := "Dark Lite" } : ThemeOption) ∈
          exampleSelector.options →
        ("Dark Lite" ∈ (presets.delete (JSName.str "Dusk - by Rivelle") duskActive).2.presets ∨
          "Dark Lite" ∉ duskActive.presets.keys) →
        ({ value := "Dark Lite", label := "Dark Lite" } : ThemeOption) ∈ result) ∧
      (result.map (fun x => x.value)).Nodup :=
  sync_postcondition duskActive.presets.keys
    (presets.delete (JSName.str "Dusk - by Rivelle") duskActive).2.presets
    exampleSelector.options "Default" { value := "Dark Lite", label := "Dark Lite" }
    (by decide)

/-! Avatar sources -/

theorem stripOrigin_unchanged (B : Browser) (url : JSString)
    (h : ¬ B.origin <+: url) : stripOrigin B url = url := by
  unfold stripOrigin
  by_cases hu : url = []
  · rw [if_pos hu, hu]
  · rw [if_neg hu, if_neg]
    rw [List.isPrefixOf_iff_prefix]
    exact h

theorem stripOrigin_origin_append (B : Browser) (rest : JSString)
    (ho : B.origin ≠ []) : stripOrigin B (B.origin ++ rest) = rest := by
  unfold stripOrigin
  have hne : B.origin ++ rest ≠ [] := by
    intro h
    exact ho (List.append_eq_nil.mp h).1
  rw [if_neg hne, if_pos (List.isPrefixOf_iff_prefix.mpr (List.prefix_append _ _)),
    List.drop_left]

theorem origin_ne_nil (B : Browser) (horigin : "http".toList <+: B.origin) :
    B.origin ≠ [] := by
  intro h
  rw [h] at horigin
  have := List.prefix_nil.mp horigin
  exact absurd this (by decide)

theorem origin_mismatch (B : Browser) (c : Char) (rest : JSString)
    (horigin : "http".toList <+: B.origin) (hc : c ≠ 'h') :
    ¬ B.origin <+: c :: rest := by
  intro h
  have h2 : "http".toList <+: c :: rest := List.IsPrefix.trans horigin h
  have h3 : "http".toList = 'h' :: "ttp".toList := rfl
  rw [h3, List.cons_prefix_cons] at h2
  exact hc h2.1.symm

theorem parseThumbnailUrl_none (B : Browser) (s : JSString)
    (hurl : ∀ s u, '?' ∉ s → B.parseUrl s = some u → u.type = none)
    (hs : '?' ∉ s) : parseThumbnailUrl B s = none := by
  unfold parseThumbnailUrl
  cases hp : B.parseUrl s with
  | none => rfl
  | some u =>
      have ht := hurl s u hs hp
      simp only
      split_ifs
      · rw [ht]
      · rfl

theorem parseAvatarSource_of_normalized (B : Browser) (src normalized : JSString)
    (hsrc : src ≠ []) (hnorm : stripOrigin B src = normalized)
    (hthumb : parseThumbnailUrl B normalized = none) :
    parseAvatarSource B (some src) =
      (let trimmed :=
          if "/".toList.isPrefixOf normalized then normalized.drop 1 else normalized
        if "characters/".toList.isPrefixOf trimmed then
          some { type := some "avatar".toList, file := trimmed.drop 11 }
        else if "User Avatars/".toList.isPrefixOf trimmed then
          some { type := some "persona".toList, file := trimmed.drop 13 }
        else some { type := none, file := trimmed }) := by
  simp only [parseAvatarSource, if_neg hsrc, hnorm, hthumb]

theorem trimmed_of_kind (kind f : JSString) (c : Char) (krest : JSString)
    (hk : kind = c :: krest) (hc : c ≠ '/') (slash : Bool) :
    (if "/".toList.isPrefixOf ((if slash then "/".toList else []) ++ kind ++ f) then
        ((if slash then "/".toList else []) ++ kind ++ f).drop 1
      else (if slash then "/".toList else []) ++ kind ++ f) = kind ++ f := by
  have hs : "/".toList = ['/'] := rfl
  cases slash with
  | true =>
      simp only [if_true, hs]
      rw [if_pos]
      · rfl
      · rw [List.isPrefixOf_iff_prefix]
        exact ⟨kind ++ f, by simp⟩
  | false =>
      simp only [Bool.false_eq_true, if_false, List.nil_append]
      rw [if_neg]
      rw [List.isPrefixOf_iff_prefix, hs, hk]
      simp only [List.cons_append, List.cons_prefix_cons]
      exact fun h => hc h.1.symm

theorem parseAvatarSource_characters (B : Browser) (src f : JSString) (slash : Bool)
    (hsrc : src ≠ [])
    (hnorm : stripOrigin B src =
      (if slash then "/".toList else []) ++ "characters/".toList ++ f)
    (hthumb : parseThumbnailUrl B
      ((if slash then "/".toList else []) ++ "characters/".toList ++ f) = none) :
    parseAvatarSource B (some src) = some { type := some "avatar".toList, file := f } := by
  rw [parseAvatarSource_of_normalized B src _ hsrc hnorm hthumb]
  simp only
  rw [trimmed_of_kind "characters/".toList f 'c' "haracters/".toList rfl (by decide) slash]
  rw [if_pos (List.isPrefixOf_iff_prefix.mpr (List.prefix_append _ _))]
  have hlen : ("characters/".toList).length = 11 := rfl
  rw [← hlen, List.drop_left]

theorem parseAvatarSource_userAvatars (B : Browser) (src f : JSString) (slash : Bool)
    (hsrc : src ≠ [])
    (hnorm : stripOrigin B src =
      (if slash then "/".toList else []) ++ "User Avatars/".toList ++ f)
    (hthumb : parseThumbnailUrl B
      ((if slash then "/".toList else []) ++ "User Avatars/".toList ++ f) = none) :
    parseAvatarSource B (some src) = some { type := some "persona".toList, file := f } := by
  rw [parseAvatarSource_of_normalized B src _ hsrc hnorm hthumb]
  simp only
  rw [trimmed_of_kind "User Avatars/".toList f 'U' "ser Avatars/".toList rfl (by decide)
    slash]
  have hnot : ¬ ("characters/".toList.isPrefixOf ("User Avatars/".toList ++ f) = true) := by
    rw [List.isPrefixOf_iff_prefix]
    have h1 : "characters/".toList = 'c' :: "haracters/".toList := rfl
    have h2 : "User Avatars/".toList = 'U' :: "ser Avatars/".toList := rfl
    rw [h1, h2, List.cons_append, List.cons_prefix_cons]
    exact fun h => absurd h.1 (by decide)
  rw [if_neg hnot, if_pos (List.isPrefixOf_iff_prefix.mpr (List.prefix_append _ _))]
  have hlen : ("User Avatars/".toList).length = 13 := rfl
  rw [← hlen, List.drop_left]

theorem stripOrigin_slash (B : Browser) (rest : JSString)
    (horigin : "http".toList <+: B.origin) :
    stripOrigin B ('/' :: rest) = '/' :: rest :=
  stripOrigin_unchanged B _ (origin_mismatch B '/' rest horigin (by decide))

theorem getAvatarSources_avatar (B : Browser) (src f : JSString)
    (horigin : "http".toList <+: B.origin)
    (h : parseAvatarSource B (some src) = some { type := some "avatar".toList, file := f }) :
    getAvatarSources B (some src) =
      { thumb := some ("/thumbnail?type=avatar&file=".toList ++ B.encodeURIComponent f)
        original := some ("/characters/".toList ++ f) } := by
  have ht : "/thumbnail?type=".toList ++ "avatar".toList ++ "&file=".toList ++
      B.encodeURIComponent f =
      '/' :: ("thumbnail?type=avatar&file=".toList ++ B.encodeURIComponent f) := by
    have : "/thumbnail?type=".toList ++ "avatar".toList ++ "&file=".toList =
        '/' :: "thumbnail?type=avatar&file=".toList := by decide
    rw [this]; rfl
  have ho : ensureAbsolute ("characters/".toList ++ f) =
      '/' :: ("characters/".toList ++ f) := by
    have h1 : "characters/".toList = 'c' :: "haracters/".toList := rfl
    unfold ensureAbsolute
    rw [if_neg (by rw [h1]; simp), if_neg]
    · rfl
    · rw [List.isPrefixOf_iff_prefix, h1]
      have hs : "/".toList = ['/'] := rfl
      rw [hs, List.cons_append, List.cons_prefix_cons]
      exact fun hh => absurd hh.1 (by decide)
  unfold getAvatarSources
  rw [h]
  simp only [true_or, if_true, Option.getD_some]
  rw [ht, ho, stripOrigin_slash B _ horigin, stripOrigin_slash B _ horigin]
  rfl

theorem getAvatarSources_persona (B : Browser) (src f : JSString)
    (horigin : "http".toList <+: B.origin)
    (h : parseAvatarSource B (some src) = some { type := some "persona".toList, file := f }) :
    getAvatarSources B (some src) =
      { thumb := some ("/thumbnail?type=persona&file=".toList ++ B.encodeURIComponent f)
        original := some ("/User Avatars/".toList ++ f) } := by
  have ht : "/thumbnail?type=".toList ++ "persona".toList ++ "&file=".toList ++
      B.encodeURIComponent f =
      '/' :: ("thumbnail?type=persona&file=".toList ++ B.encodeURIComponent f) := by
    have : "/thumbnail?type=".toList ++ "persona".toList ++ "&file=".toList =
        '/' :: "thumbnail?type=persona&file=".toList := by decide
    rw [this]; rfl
  have ho : ensureAbsolute ("User Avatars/".toList ++ f) =
      '/' :: ("User Avatars/".toList ++ f) := by
    have h1 : "User Avatars/".toList = 'U' :: "ser Avatars/".toList := rfl
    unfold ensureAbsolute
    rw [if_neg (by rw [h1]; simp), if_neg]
    · rfl
    · rw [List.isPrefixOf_iff_prefix, h1]
      have hs : "/".toList = ['/'] := rfl
      rw [hs, List.cons_append, List.cons_prefix_cons]
      exact fun hh => absurd hh.1 (by decide)
  have hne : ¬ (some "persona".toList = some "avatar".toList) := by decide
  unfold getAvatarSources
  rw [h]
  simp only [hne, or_true, if_true, if_false, Option.getD_some]
  rw [ht, ho, stripOrigin_slash B _ horigin, stripOrigin_slash B _ horigin]
  rfl

theorem splitFirst_snd_none (sep : Char) :
    ∀ s : JSString, sep ∉ s → (splitFirst sep s).2 = none
  | [], _ => rfl
  | c :: rest, h => by
      have hc : ¬ c = sep := fun e => h (by rw [e]; exact List.mem_cons_self _ _)
      have hr : sep ∉ rest := fun hm => h (List.mem_cons_of_mem _ hm)
      simp only [splitFirst, if_neg hc]
      exact splitFirst_snd_none sep rest hr

theorem mem_of_mem_splitFirst_fst (sep : Char) :
    ∀ (s : JSString) (x : Char), x ∈ (splitFirst sep s).1 → x ∈ s
  | [], x, h => by simp [splitFirst] at h
  | c :: rest, x, h => by
      by_cases hc : c = sep
      · simp [splitFirst, hc] at h
      · simp only [splitFirst, if_neg hc, List.mem_cons] at h
        rcases h with h | h
        · rw [h]; exact List.mem_cons_self _ _
        · exact List.mem_cons_of_mem _ (mem_of_mem_splitFirst_fst sep rest x h)

theorem modelParseUrl_no_query (s : JSString) (u : UrlParts) (hs : '?' ∉ s)
    (hp : modelParseUrl s = some u) : u.type = none := by
  have hq : Char.ofNat 63 = '?' := rfl
  unfold modelParseUrl at hp
  simp only [Option.some.injEq] at hp
  rw [← hp]
  simp only
  have hnot : Char.ofNat 63 ∉ (splitFirst (Char.ofNat 35)
      (List.filter (fun c => decide (c.toNat ∉ [9, 10, 13]))
        ((List.dropWhile (fun c => decide (c.toNat ≤ 32))
          (List.dropWhile (fun c => decide (c.toNat ≤ 32)) s).reverse).reverse))).1 := by
    intro hm
    have h1 := mem_of_mem_splitFirst_fst _ _ _ hm
    have h2 := List.mem_of_mem_filter h1
    have h3 := List.mem_reverse.mp h2
    have h4 := (List.dropWhile_sublist _).subset h3
    have h5 := List.mem_reverse.mp h4
    have h6 := (List.dropWhile_sublist _).subset h5
    rw [hq] at h6
    exact hs h6
  rw [splitFirst_snd_none _ _ hnot]
  rfl

/-- C29, counterexample: for the file name `thumbnail?type=persona&file=b.png` the
source `characters/` + f is read as a thumbnail URL: `getAvatarSources` returns the
thumb `/thumbnail?type=persona&file=b.png` and the original `/User Avatars/b.png`, not
the avatar thumb of f and `/characters/` + f. -/
theorem avatar_source_with_query_read_as_thumbnail :
    getAvatarSources modelBrowser
      (some ("characters/".toList ++ "thumbnail?type=persona&file=b.png".toList)) =
      { thumb := some "/thumbnail?type=persona&file=b.png".toList
        original := some "/User Avatars/b.png".toList } ∧
    (getAvatarSources modelBrowser
      (some ("characters/".toList ++ "thumbnail?type=persona&file=b.png".toList))).thumb ≠
      some ("/thumbnail?type=avatar&file=".toList ++
        modelBrowser.encodeURIComponent "thumbnail?type=persona&file=b.png".toList) ∧
    (getAvatarSources modelBrowser
      (some ("characters/".toList ++
        "thumbnail?type=persona&file=b.png".toList))).original ≠
      some ("/characters/".toList ++ "thumbnail?type=persona&file=b.png".toList) :=
  ⟨by decide, by decide, by decide⟩

/-- C29, amended: for every file name f for which the sources below are not read as
thumbnail URLs (the `try` block of `parseAvatarSource` returns nothing, as it does for
every f without `?`), `getAvatarSources` applied to `characters/` + f, with or without
a leading `/` and with or without the page origin in front, returns the thumb
`/thumbnail?type=avatar&file=` + encodeURIComponent(f) and the original
`/characters/` + f; likewise `User Avatars/` + f gives the persona thumb and the
original `/User Avatars/` + f; and an empty or missing source gives
`thumb: null, original: null`.  The page origin starts with `http`. -/
theorem getAvatarSources_of_file_name (B : Browser) (f : JSString)
    (withOrigin slash : Bool)
    (horigin : "http".toList <+: B.origin)
    (hcharacters : parseThumbnailUrl B
      ((if slash then "/".toList else []) ++ "characters/".toList ++ f) = none)
    (huser : parseThumbnailUrl B
      ((if slash then "/".toList else []) ++ "User Avatars/".toList ++ f) = none) :
    getAvatarSources B
      (some ((if withOrigin then B.origin else []) ++
        ((if slash then "/".toList else []) ++ "characters/".toList ++ f))) =
      { thumb := some ("/thumbnail?type=avatar&file=".toList ++ B.encodeURIComponent f)
        original := some ("/characters/".toList ++ f) } ∧
    getAvatarSources B
      (some ((if withOrigin then B.origin else []) ++
        ((if slash then "/".toList else []) ++ "User Avatars/".toList ++ f))) =
      { thumb := some ("/thumbnail?type=persona&file=".toList ++ B.encodeURIComponent f)
        original := some ("/User Avatars/".toList ++ f) } ∧
    getAvatarSources B none = { thumb := none, original := none } ∧
    getAvatarSources B (some []) = { thumb := none, original := none } := by
  have hstrip : ∀ (kind : JSString) (c : Char) (krest : JSString), kind = c :: krest →
      c ≠ 'h' →
      (if withOrigin then B.origin else []) ++
          ((if slash then "/".toList else []) ++ kind ++ f) ≠ [] ∧
      stripOrigin B ((if withOrigin then B.origin else []) ++
          ((if slash then "/".toList else []) ++ kind ++ f)) =
        (if slash then "/".toList else []) ++ kind ++ f := by
    intro kind c krest hk hc
    have hne : (if slash then "/".toList else []) ++ kind ++ f ≠ [] := by
      rw [hk]; cases slash <;> simp
    cases withOrigin with
    | true =>
        simp only [if_true]
        refine ⟨?_, stripOrigin_origin_append B _ (origin_ne_nil B horigin)⟩
        intro h
        exact hne (List.append_eq_nil.mp h).2
    | false =>
        simp only [Bool.false_eq_true, if_false, List.nil_append]
        refine ⟨hne, ?_⟩
        cases slash with
        | true =>
            exact stripOrigin_unchanged B _
              (origin_mismatch B '/' _ horigin (by decide))
        | false =>
            simp only [Bool.false_eq_true, if_false, List.nil_append]
            rw [hk]
            exact stripOrigin_unchanged B _ (origin_mismatch B c _ horigin hc)
  refine ⟨?_, ?_, rfl, rfl⟩
  · obtain ⟨hne, hs⟩ := hstrip "characters/".toList 'c' "haracters/".toList rfl (by decide)
    exact getAvatarSources_avatar B _ f horigin
      (parseAvatarSource_characters B _ f slash hne hs hcharacters)
  · obtain ⟨hne, hs⟩ := hstrip "User Avatars/".toList 'U' "ser Avatars/".toList rfl
      (by decide)
    exact getAvatarSources_persona B _ f horigin
      (parseAvatarSource_userAvatars B _ f slash hne hs huser)

theorem getAvatarSources_of_file_name_witness :
    getAvatarSources modelBrowser
      (some ((if true then modelBrowser.origin else []) ++
        ((if true then "/".toList else []) ++ "characters/".toList ++
          "Alice Smith.png".toList))) =
      { thumb := some ("/thumbnail?type=avatar&file=".toList ++
          modelBrowser.encodeURIComponent "Alice Smith.png".toList)
        original := some ("/characters/".toList ++ "Alice Smith.png".toList) } ∧
    getAvatarSources modelBrowser
      (some ((if true then modelBrowser.origin else []) ++
        ((if true then "/".toList else []) ++ "User Avatars/".toList ++
          "Alice Smith.png".toList))) =
      { thumb := some ("/thumbnail?type=persona&file=".toList ++
          modelBrowser.encodeURIComponent "Alice Smith.png".toList)
        original := some ("/User Avatars/".toList ++ "Alice Smith.png".toList) } ∧
    getAvatarSources modelBrowser none = { thumb := none, original := none } ∧
    getAvatarSources modelBrowser (some []) = { thumb := none, original := none } :=
  getAvatarSources_of_file_name modelBrowser "Alice Smith.png".toList true true
    (by decide)
    (parseThumbnailUrl_none modelBrowser _ modelParseUrl_no_query (by decide))
    (parseThumbnailUrl_none modelBrowser _ modelParseUrl_no_query (by decide))

/-- C30, evaluated at failing inputs.  For the file name `100%.png` the first
application returns the thumb `/thumbnail?type=avatar&file=100%25.png` and the
original `/characters/100%.png`; applied to that thumb, `getAvatarSources` returns the
same thumb but the thumb URL itself as original, because `decodeURIComponent` is
applied to the value `searchParams.get` has already decoded and throws.  For the file
name `a%41.png` the second decoding succeeds and yields the file `aA.png`, so thumb
and original both change. -/
theorem avatar_rewrite_not_stable_with_percent :
    getAvatarSources modelBrowser (some ("characters/".toList ++ "100%.png".toList)) =
      { thumb := some "/thumbnail?type=avatar&file=100%25.png".toList
        original := some "/characters/100%.png".toList } ∧
    getAvatarSources modelBrowser
      (getAvatarSources modelBrowser
        (some ("characters/".toList ++ "100%.png".toList))).thumb =
      { thumb := some "/thumbnail?type=avatar&file=100%25.png".toList
        original := some "/thumbnail?type=avatar&file=100%25.png".toList } ∧
    getAvatarSources modelBrowser (some ("characters/".toList ++ "a%41.png".toList)) =
      { thumb := some "/thumbnail?type=avatar&file=a%2541.png".toList
        original := some "/characters/a%41.png".toList } ∧
    getAvatarSources modelBrowser
      (getAvatarSources modelBrowser
        (some ("characters/".toList ++ "a%41.png".toList))).thumb =
      { thumb := some "/thumbnail?type=avatar&file=aA.png".toList
        original := some "/characters/aA.png".toList } :=
  ⟨by decide, by decide, by decide, by decide⟩

end MoonlitEchoes
